import Mathlib

/-!
# PostSRSd endpoint provisioning (`src/endpoint.c`)

A shallow embedding of `endpoint_create`, `create_unix_socket` and
`create_inet_sockets`.

Conventions of the embedding.

* A C string is the list of its characters before the terminating NUL
  (`CString`); a C string never holds a NUL, and every character is one `char`.
* The operating system is an oracle (`World`): it fixes what `acquire_lock`,
  `getaddrinfo` and the socket calls return.  Every call the code makes, and
  every line it prints on `stderr`, is appended to a trace of `Event`s in
  program order, so that "no system call is made", "unlink happens before
  socket" and "which branch printed its message" are statements about the
  trace.
* The caller's array `int* fds` is the memory behind the pointer, a map from
  index to value (`Nat → Int`); `*fds++ = sock` is a store at the running index.
* `int` values are `Int`; the only arithmetic on them is `max_fds--` and
  `count++`, bounded by the number of resolution candidates, so no overflow
  can occur.
-/

namespace PostSRSd

/-- The characters of a C string, without the terminating NUL. -/
abbrev CString := List Char

/-- Address families used by `endpoint.c`. -/
inductive Family
  | AF_UNSPEC
  | AF_UNIX
  | AF_INET
  | AF_INET6
  deriving DecidableEq, Repr

/-- The one socket type used by `endpoint.c`. -/
inductive SockType
  | SOCK_STREAM
  deriving DecidableEq, Repr

/-- The value of `AI_PASSIVE` in `<netdb.h>`; `hints.ai_flags` starts at 0 (memset). -/
def AI_PASSIVE : Nat := 1

/-- Modelled from the spec: the build configuration `postsrsd_build_config.h`
that `endpoint.c` includes is not among the sources.  The spec has every
socket set non-blocking before it is returned, so `HAVE_FCNTL_H` is defined. -/
def HAVE_FCNTL_H : Bool := true

/-- Modelled from the spec: `HAVE_UNIX_SOCKETS` is defined by `endpoint.c` when
the system headers define `AF_UNIX`; the spec has UNIX-domain endpoints, so it
is defined. -/
def HAVE_UNIX_SOCKETS : Bool := true

/-- Modelled from the spec: `HAVE_INET_SOCKETS` is defined by `endpoint.c` when
`HAVE_NETDB_H` (of the missing build configuration) and the `AF_*` families are
defined; the spec has internet endpoints, so it is defined. -/
def HAVE_INET_SOCKETS : Bool := true

/-- The macro `POSTSRSD_SOCKET_LISTEN_QUEUE` of `endpoint.c`. -/
def POSTSRSD_SOCKET_LISTEN_QUEUE : Nat := 16

/-- The arguments of one `getaddrinfo(node, service, &hints, &ai)` call. -/
structure Request where
  node : Option CString
  service : CString
  ai_family : Family
  ai_socktype : SockType
  ai_flags : Nat
  deriving DecidableEq, Repr

/-- What the system calls made for one socket return, and the `errno` the
failing call leaves behind.  A return value below zero is a failure, as the
code tests it (`< 0`). -/
structure Outcome where
  socket_ret : Int
  setsockopt_ret : Int
  bind_ret : Int
  listen_ret : Int
  getfl_ret : Int
  setfl_ret : Int
  errno : Int
  deriving DecidableEq, Repr

/-- One entry of the list `getaddrinfo` returns (`struct addrinfo`), together
with the fixed outcome of the socket calls made for it. -/
structure Candidate where
  ai_family : Family
  ai_socktype : SockType
  ai_protocol : Int
  ai_addr : Nat
  out : Outcome
  deriving DecidableEq, Repr

/-- The lines `endpoint.c` prints on `stderr`. -/
inductive Msg
  | expected_path
  | expected_bracket
  | expected_colon
  | expected_port
  | strerror (errno : Int)
  | gai_strerror (err : Int)
  | failed_endpoint (s : CString)
  | unsupported_endpoint (s : CString)
  deriving DecidableEq, Repr

/-- Calls made by `endpoint.c`, with the arguments that matter, and its
`stderr` output. -/
inductive Event
  | acquire_lock (path : CString)
  | unlink (path : CString)
  | socket (domain : Family) (type : SockType) (protocol : Int)
  | setsockopt_reuseport (fd : Int)
  | bind_unix (fd : Int) (sun_path : CString)
  | bind (fd : Int) (ai_addr : Nat)
  | listen (fd : Int) (backlog : Nat)
  | fcntl_getfl (fd : Int)
  | fcntl_setfl_nonblock (fd : Int) (flags : Int)
  | close (fd : Int)
  | getaddrinfo (req : Request)
  | freeaddrinfo
  | stderr (m : Msg)
  deriving DecidableEq, Repr

/-- The environment of one `endpoint_create` call.  `sun_path_size` is
`sizeof(sa.sun_path)` of the platform's `<sys/un.h>` (108 on Linux);
`acquire_lock` is the function of `util.c` declared in `util.h`;
`unix_out` fixes the outcome of the calls made for the UNIX-domain socket;
`getaddrinfo` gives the error code (0 on success) and the candidate list. -/
structure World where
  sun_path_size : Nat
  acquire_lock : CString → Int
  unix_out : Outcome
  getaddrinfo : Request → Int × List Candidate

/-- The observable result of a call: return value, the caller's array
afterwards, and the trace of calls and messages. -/
structure Result where
  ret : Int
  fds : Nat → Int
  trace : List Event

/-- The store `fds[i] = v`. -/
def store (fds : Nat → Int) (i : Nat) (v : Int) : Nat → Int :=
  fun j => if j = i then v else fds j

/-- The label `fail:` of both socket creating functions: print
`strerror(errno)`, then close the socket if one was obtained. -/
def fail_path (sock : Int) (errno : Int) : List Event :=
  Event.stderr (Msg.strerror errno) :: (if 0 ≤ sock then [Event.close sock] else [])

/-- Function `create_unix_socket` (endpoint.c lines 58-91).  `path` is never
NULL when called from `endpoint_create`.
`strncpy(sa.sun_path, path, sizeof(sa.sun_path) - 1)` into the zeroed buffer
leaves the first `sizeof(sa.sun_path) - 1` characters of `path` as the bound
address. -/
def create_unix_socket (w : World) (path : CString) : Int × List Event :=
  if path = [] then
    (-1, [Event.stderr Msg.expected_path])
  else
    let t0 := Event.acquire_lock path ::
      (if 0 < w.acquire_lock path then [Event.unlink path] else [])
    let o := w.unix_out
    let sock := o.socket_ret
    let t1 := t0 ++ [Event.socket Family.AF_UNIX SockType.SOCK_STREAM 0]
    if sock < 0 then (-1, t1 ++ fail_path sock o.errno) else
    let t2 := t1 ++ [Event.bind_unix sock (path.take (w.sun_path_size - 1))]
    if o.bind_ret < 0 then (-1, t2 ++ fail_path sock o.errno) else
    let t3 := t2 ++ [Event.listen sock POSTSRSD_SOCKET_LISTEN_QUEUE]
    if o.listen_ret < 0 then (-1, t3 ++ fail_path sock o.errno) else
    if HAVE_FCNTL_H then
      let t4 := t3 ++ [Event.fcntl_getfl sock]
      if o.getfl_ret < 0 then (-1, t4 ++ fail_path sock o.errno) else
      let t5 := t4 ++ [Event.fcntl_setfl_nonblock sock o.getfl_ret]
      if o.setfl_ret < 0 then (-1, t5 ++ fail_path sock o.errno) else
      (sock, t5)
    else (sock, t3)

/-- The scan for the first occurrence of `c` (`strchr`, and the `while` loop
looking for the closing bracket): the text before it and the text after it,
or `none` when the terminating NUL is reached first. -/
def split_first (c : Char) : CString → Option (CString × CString)
  | [] => none
  | x :: xs =>
    if x = c then some ([], xs)
    else match split_first c xs with
      | none => none
      | some (a, b) => some (x :: a, b)

/-- What lines 100-137 of `create_inet_sockets` leave behind: either the
message printed before `return -1`, or the variables `node` (absent when NULL)
and `service`. -/
inductive Parsed
  | error (m : Msg)
  | ok (node : Option CString) (service : CString)
  deriving DecidableEq, Repr

/-- Lines 100-137 of `create_inet_sockets`: the split of the address text into
`node` and `service`.  `addr[0]` is the head of the text (NUL when it is
empty); after the closing bracket `*addr` is the head of the remaining text. -/
def parse_addr (addr : CString) : Parsed :=
  if addr.head? = some '[' then
    match split_first ']' addr.tail with
    | none => Parsed.error Msg.expected_bracket
    | some (node, after) =>
      if after.head? = some ':' then Parsed.ok (some node) after.tail
      else Parsed.error Msg.expected_colon
  else
    match split_first ':' addr with
    | some (node, service) => Parsed.ok (some node) service
    | none => Parsed.ok none addr

/-- The body of the candidate loop of `create_inet_sockets` (lines 165-188)
for one candidate; `SO_REUSEPORT` is requested (`SO_REUSEADDR` where the
platform lacks it, lines 52-54): `true` and the calls made when
the `continue` at line 183 is reached (the socket is then stored by the
caller), `false` and the calls made, the `fail:` path last, otherwise. -/
def try_candidate (c : Candidate) : Bool × List Event :=
  let o := c.out
  let sock := o.socket_ret
  let t1 := [Event.socket c.ai_family c.ai_socktype c.ai_protocol]
  if sock < 0 then (false, t1 ++ fail_path sock o.errno) else
  let t2 := t1 ++ [Event.setsockopt_reuseport sock]
  if o.setsockopt_ret < 0 then (false, t2 ++ fail_path sock o.errno) else
  let t3 := t2 ++ [Event.bind sock c.ai_addr]
  if o.bind_ret < 0 then (false, t3 ++ fail_path sock o.errno) else
  let t4 := t3 ++ [Event.listen sock POSTSRSD_SOCKET_LISTEN_QUEUE]
  if o.listen_ret < 0 then (false, t4 ++ fail_path sock o.errno) else
  if HAVE_FCNTL_H then
    let t5 := t4 ++ [Event.fcntl_getfl sock]
    if o.getfl_ret < 0 then (false, t5 ++ fail_path sock o.errno) else
    let t6 := t5 ++ [Event.fcntl_setfl_nonblock sock o.getfl_ret]
    if o.setfl_ret < 0 then (false, t6 ++ fail_path sock o.errno) else
    (true, t6)
  else (true, t4)

/-- The variables of the candidate loop when it is left: the caller's array,
`count`, `err`, and the calls made. -/
structure LoopState where
  fds : Nat → Int
  count : Nat
  err : Int
  trace : List Event

/-- The candidate loop of `create_inet_sockets` (lines 161-189), entered with
the list position `it`, the remaining `max_fds`, the array, `count` (also the
offset of the moving pointer `fds`) and `err`. -/
def inet_loop : List Candidate → Int → (Nat → Int) → Nat → Int → LoopState
  | [], _, fds, count, err => ⟨fds, count, err, []⟩
  | c :: it, max_fds, fds, count, err =>
    if max_fds = 0 then ⟨fds, count, err, []⟩
    else
      match try_candidate c with
      | (true, t) =>
        let st := inet_loop it (max_fds - 1) (store fds count c.out.socket_ret) (count + 1) err
        ⟨st.fds, st.count, st.err, t ++ st.trace⟩
      | (false, t) =>
        let st := inet_loop it max_fds fds count c.out.errno
        ⟨st.fds, st.count, st.err, t ++ st.trace⟩

/-- Lines 143-153 of `create_inet_sockets`: the arguments of the `getaddrinfo`
call, from the parsed `node` and `service` and the requested family.  A node
equal to `*` is replaced by NULL with `AI_PASSIVE` set in the zeroed hints; a
node (still present and) equal to `localhost` is replaced by NULL. -/
def getaddrinfo_args (node : Option CString) (service : CString) (family : Family) :
    Request :=
  let star : Bool := node = some "*".toList
  let flags : Nat := if star then 0 ||| AI_PASSIVE else 0
  let node1 : Option CString := if star then none else node
  let node2 : Option CString := if node1 = some "localhost".toList then none else node1
  ⟨node2, service, family, SockType.SOCK_STREAM, flags⟩

/-- Function `create_inet_sockets` (endpoint.c lines 95-194). -/
def create_inet_sockets (w : World) (addr : CString) (family : Family) (max_fds : Int)
    (fds : Nat → Int) : Result :=
  match parse_addr addr with
  | Parsed.error m => ⟨-1, fds, [Event.stderr m]⟩
  | Parsed.ok node service =>
    if service = [] then ⟨-1, fds, [Event.stderr Msg.expected_port]⟩
    else
      let req := getaddrinfo_args node service family
      let r := w.getaddrinfo req
      if r.1 ≠ 0 then
        ⟨-1, fds, [Event.getaddrinfo req, Event.stderr (Msg.gai_strerror r.1)]⟩
      else
        let st := inet_loop r.2 max_fds fds 0 r.1
        let tr := Event.getaddrinfo req :: (st.trace ++ [Event.freeaddrinfo])
        if st.count = 0 ∧ st.err ≠ 0 then ⟨-1, st.fds, tr⟩
        else ⟨(st.count : Int), st.fds, tr⟩

/-- The test `strncmp(s, lit, n) == 0` on C strings: the first `n` characters
(fewer when the string ends before) agree. -/
def strncmp_eq (s lit : CString) (n : Nat) : Bool :=
  s.take n == lit.take n

/-- Function `endpoint_create` (endpoint.c lines 197-253); `strdup` is taken to
succeed. -/
def endpoint_create (w : World) (s : CString) (max_fds : Int) (fds : Nat → Int) : Result :=
  if max_fds < 1 then ⟨0, fds, []⟩
  else
    let path : Option CString :=
      if HAVE_UNIX_SOCKETS then
        if strncmp_eq s "unix:".toList 5 then some (s.drop 5)
        else if strncmp_eq s "local:".toList 6 then some (s.drop 6)
        else none
      else none
    match path with
    | some p =>
      let r := create_unix_socket w p
      if r.1 < 0 then ⟨-1, fds, r.2 ++ [Event.stderr (Msg.failed_endpoint s)]⟩
      else ⟨1, store fds 0 r.1, r.2⟩
    | none =>
      let addr : Option (CString × Family) :=
        if HAVE_INET_SOCKETS then
          if strncmp_eq s "inet:".toList 5 then some (s.drop 5, Family.AF_UNSPEC)
          else if strncmp_eq s "inet4:".toList 6 then some (s.drop 6, Family.AF_INET)
          else if strncmp_eq s "inet6:".toList 6 then some (s.drop 6, Family.AF_INET6)
          else none
        else none
      match addr with
      | some (a, family) =>
        let r := create_inet_sockets w a family max_fds fds
        if r.ret < 0 then ⟨r.ret, r.fds, r.trace ++ [Event.stderr (Msg.failed_endpoint s)]⟩
        else r
      | none => ⟨-1, fds, [Event.stderr (Msg.unsupported_endpoint s)]⟩

/-- Whether an event is a call into the system (everything but `stderr` output). -/
def Event.isCall : Event → Bool
  | Event.stderr _ => false
  | _ => true

/-- The system calls of a trace, in order. -/
def calls (tr : List Event) : List Event := tr.filter Event.isCall

/-- The `getaddrinfo` requests of a trace, in order. -/
def requests : List Event → List Request
  | [] => []
  | Event.getaddrinfo q :: tr => q :: requests tr
  | _ :: tr => requests tr

/-- Whether an event is a `socket` call. -/
def Event.isSocket : Event → Bool
  | Event.socket _ _ _ => true
  | _ => false

/-- Number of `socket` calls in a trace. -/
def socket_calls (tr : List Event) : Nat := (tr.filter Event.isSocket).length

/-- Number of `close(fd)` calls in a trace. -/
def closes (fd : Int) (tr : List Event) : Nat := tr.count (Event.close fd)

/-- All six calls for a socket return a non-negative value (the candidate
reaches line 180). -/
def Outcome.ok (o : Outcome) : Bool :=
  decide (0 ≤ o.socket_ret) && decide (0 ≤ o.setsockopt_ret) && decide (0 ≤ o.bind_ret)
    && decide (0 ≤ o.listen_ret) && decide (0 ≤ o.getfl_ret) && decide (0 ≤ o.setfl_ret)

/-- The five calls made for the UNIX-domain socket (no `setsockopt` there)
return a non-negative value. -/
def Outcome.unix_ok (o : Outcome) : Bool :=
  decide (0 ≤ o.socket_ret) && decide (0 ≤ o.bind_ret)
    && decide (0 ≤ o.listen_ret) && decide (0 ≤ o.getfl_ret) && decide (0 ≤ o.setfl_ret)

/-- The candidates the loop gets to when it may store `n` more sockets: those
up to and including the one that gives the `n`-th success, or all of them when
fewer than `n` succeed. -/
def attempted : List Candidate → Nat → List Candidate
  | [], _ => []
  | _ :: _, 0 => []
  | c :: cs, n + 1 => c :: attempted cs (if c.out.ok then n else n + 1)

/-- The descriptors of the candidates that succeed, in resolution order. -/
def succeeding (cands : List Candidate) : List Int :=
  (cands.filter (fun c => c.out.ok)).map (fun c => c.out.socket_ret)

/-- The calls made for a list of candidates, one after the other. -/
def attempts_trace (cands : List Candidate) : List Event :=
  (cands.map (fun c => (try_candidate c).2)).flatten

/-- The array after storing the values `l` from index `i` on. -/
def store_list (fds : Nat → Int) (i : Nat) : List Int → Nat → Int
  | [] => fds
  | v :: l => store_list (store fds i v) (i + 1) l

/-- Example candidates: an IPv4 address for which every call succeeds
(descriptor 4), then an IPv6 address whose bind fails with errno 98. -/
def exCands : List Candidate :=
  [⟨Family.AF_INET, SockType.SOCK_STREAM, 6, 1, ⟨4, 0, 0, 0, 2, 0, 0⟩⟩,
   ⟨Family.AF_INET6, SockType.SOCK_STREAM, 6, 2, ⟨5, 0, -1, 0, 2, 0, 98⟩⟩]

/-- An example environment: the lock is free, every call for the UNIX-domain
socket succeeds (descriptor 5), and every resolution yields `exCands`. -/
def exWorld : World :=
  ⟨108, fun _ => 3, ⟨5, 0, 0, 0, 2, 0, 0⟩, fun _ => (0, exCands)⟩

/-- An example environment in which the lock is held by another process and
binding the UNIX-domain socket fails with errno 98. -/
def exWorldBusy : World :=
  ⟨108, fun _ => -1, ⟨5, 0, -1, 0, 2, 0, 98⟩, fun _ => (0, [])⟩

/-- An array of zeros, as a caller may pass it. -/
def exFds : Nat → Int := fun _ => 0

/-- A path of 108 characters, one more than fits `sun_path` on Linux. -/
def exLongPath : CString := List.replicate 108 'a'

/-! ## Theorems -/

/-- The characters of the literal `"unix:"`. -/
theorem lit_unix : "unix:".toList = ['u', 'n', 'i', 'x', ':'] := rfl

/-- The characters of the literal `"local:"`. -/
theorem lit_local : "local:".toList = ['l', 'o', 'c', 'a', 'l', ':'] := rfl

/-- The characters of the literal `"inet:"`. -/
theorem lit_inet : "inet:".toList = ['i', 'n', 'e', 't', ':'] := rfl

/-- The characters of the literal `"inet4:"`. -/
theorem lit_inet4 : "inet4:".toList = ['i', 'n', 'e', 't', '4', ':'] := rfl

/-- The characters of the literal `"inet6:"`. -/
theorem lit_inet6 : "inet6:".toList = ['i', 'n', 'e', 't', '6', ':'] := rfl

/-- With `max_fds >= 1`, a spec `unix:P` takes the UNIX-domain branch (lines 203-221). -/
theorem endpoint_create_unix (w : World) (P : CString) (m : Int) (fds : Nat → Int)
    (h : 1 ≤ m) :
    endpoint_create w ("unix:".toList ++ P) m fds =
      if (create_unix_socket w P).1 < 0 then
        ⟨-1, fds, (create_unix_socket w P).2 ++
          [Event.stderr (Msg.failed_endpoint ("unix:".toList ++ P))]⟩
      else ⟨1, store fds 0 (create_unix_socket w P).1, (create_unix_socket w P).2⟩ := by
  have h1 : ¬ m < 1 := by omega
  simp [endpoint_create, HAVE_UNIX_SOCKETS, HAVE_INET_SOCKETS, h1, strncmp_eq, lit_unix]

/-- With `max_fds >= 1`, a spec `local:P` takes the UNIX-domain branch (lines 207-221). -/
theorem endpoint_create_local (w : World) (P : CString) (m : Int) (fds : Nat → Int)
    (h : 1 ≤ m) :
    endpoint_create w ("local:".toList ++ P) m fds =
      if (create_unix_socket w P).1 < 0 then
        ⟨-1, fds, (create_unix_socket w P).2 ++
          [Event.stderr (Msg.failed_endpoint ("local:".toList ++ P))]⟩
      else ⟨1, store fds 0 (create_unix_socket w P).1, (create_unix_socket w P).2⟩ := by
  have h1 : ¬ m < 1 := by omega
  simp [endpoint_create, HAVE_UNIX_SOCKETS, HAVE_INET_SOCKETS, h1, strncmp_eq, lit_unix,
    lit_local]

/-- C4: for every spec string and every `max_fds < 1`, `endpoint_create`
returns 0, makes no call at all (the trace is empty: no lock, unlink,
resolution, socket or close, and no message) and leaves `fds` as it was. -/
theorem endpoint_create_max_fds_below_one (w : World) (s : CString) (max_fds : Int)
    (fds : Nat → Int) (h : max_fds < 1) :
    (endpoint_create w s max_fds fds).ret = 0 ∧
    (endpoint_create w s max_fds fds).fds = fds ∧
    (endpoint_create w s max_fds fds).trace = [] := by
  simp [endpoint_create, h]

/-- C9: for every non-empty path `P`, the trace of `create_unix_socket` holds
`unlink(P)` if and only if `acquire_lock(P)` returned a positive handle; when
it did, the trace starts `acquire_lock(P), unlink(P), socket(AF_UNIX, ...)`,
so the removal precedes the creation and binding of the socket, and nothing
else is unlinked afterwards; when it did not, no `unlink` is made at all. -/
theorem create_unix_socket_unlink_iff_lock (w : World) (P : CString) (hP : P ≠ []) :
    (Event.unlink P ∈ (create_unix_socket w P).2 ↔ 0 < w.acquire_lock P) ∧
    (0 < w.acquire_lock P → ∃ rest, (create_unix_socket w P).2 =
        Event.acquire_lock P :: Event.unlink P ::
          Event.socket Family.AF_UNIX SockType.SOCK_STREAM 0 :: rest ∧
        ∀ q, Event.unlink q ∉ rest) ∧
    (¬ 0 < w.acquire_lock P → ∀ q, Event.unlink q ∉ (create_unix_socket w P).2) := by
  refine ⟨?_, ?_, ?_⟩
  · by_cases hl : 0 < w.acquire_lock P
    · simp only [create_unix_socket, HAVE_FCNTL_H, eq_self_iff_true, if_true, if_neg hP, if_pos hl, fail_path]
      split_ifs <;> simp [hl]
    · simp only [create_unix_socket, HAVE_FCNTL_H, eq_self_iff_true, if_true, if_neg hP, if_neg hl, fail_path]
      split_ifs <;> simp [hl]
  · intro hl
    simp only [create_unix_socket, HAVE_FCNTL_H, eq_self_iff_true, if_true, if_neg hP, if_pos hl, fail_path]
    split_ifs <;> simp
  · intro hl q
    simp only [create_unix_socket, HAVE_FCNTL_H, eq_self_iff_true, if_true, if_neg hP, if_neg hl, fail_path]
    split_ifs <;> simp

/-- An empty path is refused before any call is made (lines 62-66). -/
theorem create_unix_socket_empty (w : World) :
    create_unix_socket w [] = (-1, [Event.stderr Msg.expected_path]) := by
  simp [create_unix_socket]

/-- When all five calls succeed, `create_unix_socket` returns the socket and
has made exactly these calls. -/
theorem create_unix_socket_ok (w : World) (P : CString) (hP : P ≠ [])
    (hok : w.unix_out.unix_ok = true) :
    create_unix_socket w P =
      (w.unix_out.socket_ret,
        Event.acquire_lock P ::
          ((if 0 < w.acquire_lock P then [Event.unlink P] else []) ++
            [Event.socket Family.AF_UNIX SockType.SOCK_STREAM 0,
             Event.bind_unix w.unix_out.socket_ret (P.take (w.sun_path_size - 1)),
             Event.listen w.unix_out.socket_ret POSTSRSD_SOCKET_LISTEN_QUEUE,
             Event.fcntl_getfl w.unix_out.socket_ret,
             Event.fcntl_setfl_nonblock w.unix_out.socket_ret w.unix_out.getfl_ret])) := by
  simp only [Outcome.unix_ok, Bool.and_eq_true, decide_eq_true_eq] at hok
  obtain ⟨⟨⟨⟨h1, h2⟩, h3⟩, h4⟩, h5⟩ := hok
  simp only [create_unix_socket, HAVE_FCNTL_H, eq_self_iff_true, if_true, if_neg hP, if_neg (not_lt.mpr h1), if_neg (not_lt.mpr h2),
    if_neg (not_lt.mpr h3), if_neg (not_lt.mpr h4), if_neg (not_lt.mpr h5)]
  simp

/-- When one of the five calls fails, `create_unix_socket` returns -1; a socket
that was obtained is closed once, as the last call, and nothing is closed
when `socket` itself failed. -/
theorem create_unix_socket_fail (w : World) (P : CString) (hP : P ≠ [])
    (hok : w.unix_out.unix_ok = false) :
    (create_unix_socket w P).1 = -1 ∧
    (0 ≤ w.unix_out.socket_ret →
      closes w.unix_out.socket_ret (create_unix_socket w P).2 = 1 ∧
      (calls (create_unix_socket w P).2).getLast? = some (Event.close w.unix_out.socket_ret)) ∧
    (w.unix_out.socket_ret < 0 → ∀ x, Event.close x ∉ (create_unix_socket w P).2) := by
  have hok2 : ¬ (w.unix_out.unix_ok = true) := by simp [hok]
  simp only [Outcome.unix_ok, Bool.and_eq_true, decide_eq_true_eq] at hok2
  simp only [create_unix_socket, HAVE_FCNTL_H, eq_self_iff_true, if_true, if_neg hP, fail_path, closes, calls]
  split_ifs <;> first
    | (exfalso; omega)
    | (exfalso; apply hok2; refine ⟨⟨⟨⟨?_, ?_⟩, ?_⟩, ?_⟩, ?_⟩ <;> omega)
    | (refine ⟨rfl, ?_, ?_⟩
       · intro h0
         first
           | (exfalso; omega)
           | simp [List.filter, Event.isCall, List.count_cons, List.count_append]
       · intro h0
         first | (exfalso; omega) | simp)

/-- UNIX-domain specs whose path fits `sun_path` (it is shorter than
`sizeof(sun_path)`): for `max_fds >= 1`, the specs `unix:P` and `local:P` give
the same return value, the same array and the same calls.  `endpoint_create`
returns 1 if and only if `P` is non-empty and socket, bind, listen and both
fcntl calls succeed; then `fds[0]` is the socket, `fds[1..]` is untouched, and
the calls made are exactly lock, the optional unlink, socket, bind to `P`,
listen, `F_GETFL`, `F_SETFL` with `O_NONBLOCK` (so nothing is closed).  In
every other case it returns -1 with `fds` unchanged; a socket that was
obtained is closed exactly once, as the last call, and nothing is closed when
none was obtained.  For an empty `P` no call is made at all. -/
theorem endpoint_create_unix_socket_result (w : World) (P : CString) (max_fds : Int)
    (fds : Nat → Int) (h : 1 ≤ max_fds) (hfit : P.length < w.sun_path_size) :
    ((endpoint_create w ("local:".toList ++ P) max_fds fds).ret =
        (endpoint_create w ("unix:".toList ++ P) max_fds fds).ret ∧
      (endpoint_create w ("local:".toList ++ P) max_fds fds).fds =
        (endpoint_create w ("unix:".toList ++ P) max_fds fds).fds ∧
      calls (endpoint_create w ("local:".toList ++ P) max_fds fds).trace =
        calls (endpoint_create w ("unix:".toList ++ P) max_fds fds).trace) ∧
    ((endpoint_create w ("unix:".toList ++ P) max_fds fds).ret = 1 ↔
      (P ≠ [] ∧ w.unix_out.unix_ok = true)) ∧
    ((P ≠ [] ∧ w.unix_out.unix_ok = true) →
      (endpoint_create w ("unix:".toList ++ P) max_fds fds).fds 0 = w.unix_out.socket_ret ∧
      (∀ i, 1 ≤ i → (endpoint_create w ("unix:".toList ++ P) max_fds fds).fds i = fds i) ∧
      (endpoint_create w ("unix:".toList ++ P) max_fds fds).trace =
        Event.acquire_lock P ::
          ((if 0 < w.acquire_lock P then [Event.unlink P] else []) ++
            [Event.socket Family.AF_UNIX SockType.SOCK_STREAM 0,
             Event.bind_unix w.unix_out.socket_ret P,
             Event.listen w.unix_out.socket_ret POSTSRSD_SOCKET_LISTEN_QUEUE,
             Event.fcntl_getfl w.unix_out.socket_ret,
             Event.fcntl_setfl_nonblock w.unix_out.socket_ret w.unix_out.getfl_ret])) ∧
    (¬ (P ≠ [] ∧ w.unix_out.unix_ok = true) →
      (endpoint_create w ("unix:".toList ++ P) max_fds fds).ret = -1 ∧
      (endpoint_create w ("unix:".toList ++ P) max_fds fds).fds = fds ∧
      (P ≠ [] → 0 ≤ w.unix_out.socket_ret →
        closes w.unix_out.socket_ret
          (endpoint_create w ("unix:".toList ++ P) max_fds fds).trace = 1 ∧
        (calls (endpoint_create w ("unix:".toList ++ P) max_fds fds).trace).getLast? =
          some (Event.close w.unix_out.socket_ret)) ∧
      ((P = [] ∨ w.unix_out.socket_ret < 0) →
        ∀ x, Event.close x ∉ (endpoint_create w ("unix:".toList ++ P) max_fds fds).trace)) ∧
    (P = [] → calls (endpoint_create w ("unix:".toList ++ P) max_fds fds).trace = []) := by
  rw [endpoint_create_unix w P max_fds fds h, endpoint_create_local w P max_fds fds h]
  by_cases hP : P = []
  · subst hP
    simp [create_unix_socket_empty, calls, Event.isCall]
  · by_cases hok : w.unix_out.unix_ok = true
    · have h0 : ¬ w.unix_out.socket_ret < 0 := by
        simp only [Outcome.unix_ok, Bool.and_eq_true, decide_eq_true_eq] at hok
        omega
      have ht : P.take (w.sun_path_size - 1) = P := List.take_of_length_le (by omega)
      rw [create_unix_socket_ok w P hP hok, ht]
      simp only [if_neg h0]
      refine ⟨⟨trivial, trivial, trivial⟩, ?_, ?_, ?_, ?_⟩
      · simp [hP, hok]
      · intro _
        refine ⟨by simp [store], ?_, trivial⟩
        intro i hi
        have : i ≠ 0 := by omega
        simp [store, this]
      · intro hn
        exact absurd ⟨hP, hok⟩ hn
      · intro hn
        exact absurd hn hP
    · have hok2 : w.unix_out.unix_ok = false := by simpa using hok
      obtain ⟨hr, hc, hn⟩ := create_unix_socket_fail w P hP hok2
      have hlt : (create_unix_socket w P).1 < 0 := by rw [hr]; decide
      simp only [if_pos hlt]
      refine ⟨⟨trivial, trivial, ?_⟩, ?_, ?_, ?_, ?_⟩
      · simp [calls, Event.isCall]
      · simp [hok]
      · intro hh
        exact absurd hh.2 hok
      · intro _
        refine ⟨trivial, trivial, ?_, ?_⟩
        · intro _ hfd
          obtain ⟨c1, c2⟩ := hc hfd
          refine ⟨?_, ?_⟩
          · simpa [closes, List.count_append, List.count_cons] using c1
          · simpa [calls, Event.isCall] using c2
        · intro hor x
          rcases hor with hE | hneg
          · exact absurd hE hP
          · have := hn hneg x
            simpa using this
      · intro hE
        exact absurd hE hP

/-- The scan stops at the first occurrence of `c`. -/
theorem split_first_append (c : Char) (H P : CString) (h : c ∉ H) :
    split_first c (H ++ c :: P) = some (H, P) := by
  induction H with
  | nil => simp [split_first]
  | cons x xs ih =>
    have hx : x ≠ c := fun e => h (by simp [e])
    have hxs : c ∉ xs := fun e => h (by simp [e])
    simp [split_first, hx, ih hxs]

/-- The scan finds nothing in a text free of `c`. -/
theorem split_first_none (c : Char) (a : CString) (h : c ∉ a) : split_first c a = none := by
  induction a with
  | nil => simp [split_first]
  | cons x xs ih =>
    have hx : x ≠ c := fun e => h (by simp [e])
    have hxs : c ∉ xs := fun e => h (by simp [e])
    simp [split_first, hx, ih hxs]

/-- The first character of `H ++ c :: P` is not `d` when `c` is not `d` and `H` does not start with `d`. -/
theorem head_append_ne (H P : CString) (c d : Char) (hcd : c ≠ d) (h : H.head? ≠ some d) :
    (H ++ c :: P).head? ≠ some d := by
  cases H with
  | nil => simpa using hcd
  | cons x xs => simpa using h

/-- Bracket form: the node ends at the first closing bracket, and a colon must follow it. -/
theorem parse_addr_bracket (H after : CString) (h : ']' ∉ H) :
    parse_addr ('[' :: (H ++ ']' :: after)) =
      if after.head? = some ':' then Parsed.ok (some H) after.tail
      else Parsed.error Msg.expected_colon := by
  simp [parse_addr, split_first_append _ H after h]

/-- Bracket form without a closing bracket is refused. -/
theorem parse_addr_unclosed (rest : CString) (h : ']' ∉ rest) :
    parse_addr ('[' :: rest) = Parsed.error Msg.expected_bracket := by
  simp [parse_addr, split_first_none _ rest h]

/-- Plain form: the node ends at the first colon. -/
theorem parse_addr_plain (H P : CString) (h1 : ':' ∉ H) (h2 : H.head? ≠ some '[') :
    parse_addr (H ++ ':' :: P) = Parsed.ok (some H) P := by
  have h3 := head_append_ne H P ':' '[' (by decide) h2
  simp only [parse_addr, if_neg h3, split_first_append _ H P h1]

/-- A text without bracket and colon is a service without node. -/
theorem parse_addr_bare (P : CString) (h1 : ':' ∉ P) (h2 : P.head? ≠ some '[') :
    parse_addr P = Parsed.ok none P := by
  simp only [parse_addr, if_neg h2, split_first_none _ P h1]

/-- C2 (amended): the split made by `create_inet_sockets`.  A text that starts
with an opening bracket has as node the text up to the first closing bracket
and as service the text after the colon that must follow it at once (no
closing bracket, or no colon right after it, is an error).  A text that does
not start with a bracket and contains a colon has as node the text before the
first colon and as service everything after it; without a colon the node is
absent and the service is the whole text.  In particular `[H]:P` with `H`
free of closing brackets gives `(H, P)` whatever colons `H` holds, `H:P` with
`H` free of colons and not starting with an opening bracket gives `(H, P)`, and
a colon-free `P` not starting with an opening bracket gives `(absent, P)`. -/
theorem parse_addr_rule :
    (∀ rest : CString,
      (∀ H after, rest = H ++ ']' :: after → ']' ∉ H →
        (∀ P, after = ':' :: P → parse_addr ('[' :: rest) = Parsed.ok (some H) P) ∧
        (after.head? ≠ some ':' →
          parse_addr ('[' :: rest) = Parsed.error Msg.expected_colon)) ∧
      (']' ∉ rest → parse_addr ('[' :: rest) = Parsed.error Msg.expected_bracket)) ∧
    (∀ a : CString, a.head? ≠ some '[' →
      (∀ H P, a = H ++ ':' :: P → ':' ∉ H → parse_addr a = Parsed.ok (some H) P) ∧
      (':' ∉ a → parse_addr a = Parsed.ok none a)) ∧
    (∀ H P : CString, ']' ∉ H →
      parse_addr ('[' :: (H ++ ']' :: ':' :: P)) = Parsed.ok (some H) P) ∧
    (∀ H P : CString, ':' ∉ H → H.head? ≠ some '[' →
      parse_addr (H ++ ':' :: P) = Parsed.ok (some H) P) ∧
    (∀ P : CString, ':' ∉ P → P.head? ≠ some '[' → parse_addr P = Parsed.ok none P) := by
  refine ⟨?_, ?_, ?_, ?_, ?_⟩
  · intro rest
    refine ⟨?_, parse_addr_unclosed rest⟩
    intro H after hr hH
    subst hr
    rw [parse_addr_bracket H after hH]
    refine ⟨?_, ?_⟩
    · intro P hP
      subst hP
      simp
    · intro hne
      simp [hne]
  · intro a ha
    refine ⟨?_, fun h => parse_addr_bare a h ha⟩
    intro H P hP hH
    subst hP
    apply parse_addr_plain H P hH
    cases H with
    | nil => simp
    | cons x xs => simpa using ha
  · intro H P hH
    rw [parse_addr_bracket H _ hH]
    simp
  · exact parse_addr_plain
  · exact parse_addr_bare

/-- C2, as stated, fails: `[a:80` is of the form `H:P` with `H = [a` free of
colons, and `[80` is colon-free, yet both take the bracket branch and are
refused for the missing closing bracket. -/
theorem parse_addr_leading_bracket_refused :
    (':' ∉ "[a".toList ∧ "[a:80".toList = "[a".toList ++ ':' :: "80".toList ∧
      parse_addr "[a:80".toList = Parsed.error Msg.expected_bracket ∧
      parse_addr "[a:80".toList ≠ Parsed.ok (some "[a".toList) "80".toList) ∧
    (':' ∉ "[80".toList ∧
      parse_addr "[80".toList = Parsed.error Msg.expected_bracket ∧
      parse_addr "[80".toList ≠ Parsed.ok none "[80".toList) := by
  decide

/-- An instance at `[::1]:25`, `mail:25` and `25`. -/
theorem parse_addr_rule_witness :
    (']' ∉ "::1".toList ∧
      parse_addr "[::1]:25".toList = Parsed.ok (some "::1".toList) "25".toList) ∧
    ((':' ∉ "mail".toList ∧ "mail".toList.head? ≠ some '[') ∧
      parse_addr "mail:25".toList = Parsed.ok (some "mail".toList) "25".toList) ∧
    ((':' ∉ "25".toList ∧ "25".toList.head? ≠ some '[') ∧
      parse_addr "25".toList = Parsed.ok none "25".toList) :=
  ⟨⟨by decide, parse_addr_rule.2.2.1 "::1".toList "25".toList (by decide)⟩,
   ⟨⟨by decide, by decide⟩, parse_addr_rule.2.2.2.1 "mail".toList "25".toList (by decide) (by decide)⟩,
   ⟨⟨by decide, by decide⟩, parse_addr_rule.2.2.2.2 "25".toList (by decide) (by decide)⟩⟩

/-- Whether the body of the loop reaches line 180 is decided by the outcome. -/
theorem try_candidate_fst (c : Candidate) : (try_candidate c).1 = c.out.ok := by
  simp only [try_candidate, HAVE_FCNTL_H, eq_self_iff_true, if_true, Outcome.ok]
  split_ifs <;> simp <;> omega

/-- The calls made for a candidate that succeeds: nothing is closed. -/
theorem try_candidate_ok (c : Candidate) (h : c.out.ok = true) :
    (try_candidate c).2 =
      [Event.socket c.ai_family c.ai_socktype c.ai_protocol,
       Event.setsockopt_reuseport c.out.socket_ret,
       Event.bind c.out.socket_ret c.ai_addr,
       Event.listen c.out.socket_ret POSTSRSD_SOCKET_LISTEN_QUEUE,
       Event.fcntl_getfl c.out.socket_ret,
       Event.fcntl_setfl_nonblock c.out.socket_ret c.out.getfl_ret] := by
  simp only [Outcome.ok, Bool.and_eq_true, decide_eq_true_eq] at h
  obtain ⟨⟨⟨⟨⟨h1, h2⟩, h3⟩, h4⟩, h5⟩, h6⟩ := h
  simp only [try_candidate, HAVE_FCNTL_H, eq_self_iff_true, if_true, if_neg (not_lt.mpr h1), if_neg (not_lt.mpr h2),
    if_neg (not_lt.mpr h3), if_neg (not_lt.mpr h4), if_neg (not_lt.mpr h5),
    if_neg (not_lt.mpr h6)]
  simp

/-- The calls made for a candidate that fails: when `socket` failed only that
call is made and nothing is closed; otherwise the socket is closed exactly
once, as the last call. -/
theorem try_candidate_fail (c : Candidate) (h : c.out.ok = false) :
    (c.out.socket_ret < 0 →
      (try_candidate c).2 =
        [Event.socket c.ai_family c.ai_socktype c.ai_protocol,
         Event.stderr (Msg.strerror c.out.errno)]) ∧
    (0 ≤ c.out.socket_ret →
      (try_candidate c).2.getLast? = some (Event.close c.out.socket_ret) ∧
      ∀ x, Event.close x ∉ (try_candidate c).2.dropLast) := by
  have h2 : ¬ (c.out.ok = true) := by simp [h]
  simp only [Outcome.ok, Bool.and_eq_true, decide_eq_true_eq] at h2
  simp only [try_candidate, HAVE_FCNTL_H, eq_self_iff_true, if_true, fail_path]
  split_ifs <;> first
    | (exfalso; omega)
    | (exfalso; apply h2; refine ⟨⟨⟨⟨⟨?_, ?_⟩, ?_⟩, ?_⟩, ?_⟩, ?_⟩ <;> omega)
    | (refine ⟨?_, ?_⟩
       · intro h0
         first | (exfalso; omega) | simp
       · intro h0
         first
           | (exfalso; omega)
           | simp)

/-- One turn of the loop with room left, for a candidate that succeeds. -/
theorem inet_loop_cons_ok (c : Candidate) (it : List Candidate) (m : Int) (fds : Nat → Int)
    (count : Nat) (err : Int) (hm : m ≠ 0) (h : c.out.ok = true) :
    inet_loop (c :: it) m fds count err =
      ⟨(inet_loop it (m - 1) (store fds count c.out.socket_ret) (count + 1) err).fds,
       (inet_loop it (m - 1) (store fds count c.out.socket_ret) (count + 1) err).count,
       (inet_loop it (m - 1) (store fds count c.out.socket_ret) (count + 1) err).err,
       (try_candidate c).2 ++
         (inet_loop it (m - 1) (store fds count c.out.socket_ret) (count + 1) err).trace⟩ := by
  have h1 := try_candidate_fst c
  rw [h] at h1
  rcases ht : try_candidate c with ⟨b, t⟩
  rw [ht] at h1
  simp only at h1
  subst h1
  simp only [inet_loop, if_neg hm, ht]

/-- One turn of the loop with room left, for a candidate that fails. -/
theorem inet_loop_cons_fail (c : Candidate) (it : List Candidate) (m : Int)
    (fds : Nat → Int) (count : Nat) (err : Int) (hm : m ≠ 0) (h : c.out.ok = false) :
    inet_loop (c :: it) m fds count err =
      ⟨(inet_loop it m fds count c.out.errno).fds,
       (inet_loop it m fds count c.out.errno).count,
       (inet_loop it m fds count c.out.errno).err,
       (try_candidate c).2 ++ (inet_loop it m fds count c.out.errno).trace⟩ := by
  have h1 := try_candidate_fst c
  rw [h] at h1
  rcases ht : try_candidate c with ⟨b, t⟩
  rw [ht] at h1
  simp only at h1
  subst h1
  simp only [inet_loop, if_neg hm, ht]

/-- The loop leaves everything as it is once `max_fds` has reached zero. -/
theorem inet_loop_zero (cands : List Candidate) (fds : Nat → Int) (count : Nat) (err : Int) :
    inet_loop cands 0 fds count err = ⟨fds, count, err, []⟩ := by
  cases cands <;> simp [inet_loop]

/-- The loop attempts exactly the candidates of `attempted`, stores the
descriptors of those that succeed from `count` on, and counts them. -/
theorem inet_loop_spec (cands : List Candidate) :
    ∀ (n : Nat) (fds : Nat → Int) (count : Nat) (err : Int),
      (inet_loop cands (n : Int) fds count err).trace = attempts_trace (attempted cands n) ∧
      (inet_loop cands (n : Int) fds count err).count =
        count + (succeeding (attempted cands n)).length ∧
      (inet_loop cands (n : Int) fds count err).fds =
        store_list fds count (succeeding (attempted cands n)) := by
  induction cands with
  | nil =>
    intro n fds count err
    simp [inet_loop, attempted, attempts_trace, succeeding, store_list]
  | cons c it ih =>
    intro n fds count err
    cases n with
    | zero =>
      have : ((0 : Nat) : Int) = 0 := rfl
      rw [this, inet_loop_zero]
      simp [attempted, attempts_trace, succeeding, store_list]
    | succ n =>
      have hm : ((n + 1 : Nat) : Int) ≠ 0 := by omega
      have hm1 : ((n + 1 : Nat) : Int) - 1 = (n : Int) := by omega
      by_cases hok : c.out.ok = true
      · rw [inet_loop_cons_ok c it _ fds count err hm hok, hm1]
        obtain ⟨i1, i2, i3⟩ := ih n (store fds count c.out.socket_ret) (count + 1) err
        simp only [attempted, hok, if_true]
        refine ⟨?_, ?_, ?_⟩
        · rw [i1]; simp [attempts_trace]
        · rw [i2]; simp [succeeding, hok]; omega
        · rw [i3]; simp [succeeding, hok, store_list]
      · have hok2 : c.out.ok = false := by simpa using hok
        rw [inet_loop_cons_fail c it _ fds count err hm hok2]
        obtain ⟨i1, i2, i3⟩ := ih (n + 1) fds count c.out.errno
        simp only [attempted, hok2]
        refine ⟨?_, ?_, ?_⟩
        · rw [i1]; simp [attempts_trace]
        · rw [i2]; simp [succeeding, hok2]
        · rw [i3]; simp [succeeding, hok2]

/-- Nothing is attempted when no socket may be stored. -/
theorem attempted_zero (cands : List Candidate) : attempted cands 0 = [] := by
  cases cands <;> simp [attempted]

/-- The attempted candidates are an initial part of the list; when some
candidate is left unattempted, the last attempted one succeeded and it was the
`n`-th success. -/
theorem attempted_initial (cands : List Candidate) :
    ∀ n : Nat, 1 ≤ n →
      ∃ rest, cands = attempted cands n ++ rest ∧
        (rest ≠ [] →
          (succeeding (attempted cands n)).length = n ∧
          ∃ pre c, attempted cands n = pre ++ [c] ∧ c.out.ok = true) := by
  induction cands with
  | nil =>
    intro n _
    exact ⟨[], by simp [attempted], fun h => absurd rfl h⟩
  | cons c cs ih =>
    intro n hn
    obtain ⟨k, rfl⟩ : ∃ k, n = k + 1 := ⟨n - 1, by omega⟩
    by_cases hok : c.out.ok = true
    · simp only [attempted, hok, if_true]
      by_cases hk : k = 0
      · subst hk
        refine ⟨cs, by simp [attempted_zero], fun _ => ?_⟩
        refine ⟨by simp [attempted_zero, succeeding, hok], [], c, by simp [attempted_zero], hok⟩
      · obtain ⟨rest, h1, h2⟩ := ih k (by omega)
        refine ⟨rest, by rw [List.cons_append, ← h1], fun hr => ?_⟩
        obtain ⟨hl, pre, d, hp, hd⟩ := h2 hr
        refine ⟨?_, c :: pre, d, by rw [hp]; rfl, hd⟩
        simp only [succeeding, List.filter_cons, hok, if_true, List.map_cons,
          List.length_cons] at hl ⊢
        omega
    · have hok2 : c.out.ok = false := by simpa using hok
      simp only [attempted, hok2]
      obtain ⟨rest, h1, h2⟩ := ih (k + 1) (by omega)
      refine ⟨rest, by simp [← h1], fun hr => ?_⟩
      obtain ⟨hl, pre, d, hp, hd⟩ := h2 hr
      refine ⟨?_, c :: pre, d, by simp [hp], hd⟩
      simpa [succeeding, hok2] using hl

/-- The successes among the attempted candidates are the first `n` successes
of the whole list. -/
theorem succeeding_attempted (cands : List Candidate) :
    ∀ n : Nat, succeeding (attempted cands n) = (succeeding cands).take n := by
  induction cands with
  | nil => intro n; simp [attempted, succeeding]
  | cons c cs ih =>
    intro n
    cases n with
    | zero => simp [attempted, succeeding]
    | succ k =>
      by_cases hok : c.out.ok = true
      · have := ih k
        simp only [succeeding] at this
        simp [attempted, succeeding, hok, this]
      · have hok2 : c.out.ok = false := by simpa using hok
        have := ih (k + 1)
        simp only [succeeding] at this
        simp [attempted, succeeding, hok2, this]

/-- Storing a list leaves the entries before the start index alone. -/
theorem store_list_below (l : List Int) :
    ∀ (fds : Nat → Int) (i j : Nat), j < i → store_list fds i l j = fds j := by
  induction l with
  | nil => intro fds i j _; rfl
  | cons v l ih =>
    intro fds i j hj
    have hne : j ≠ i := by omega
    simp [store_list, ih (store fds i v) (i + 1) j (by omega), store, hne]

/-- Storing a list leaves the entries behind its end alone. -/
theorem store_list_above (l : List Int) :
    ∀ (fds : Nat → Int) (i j : Nat), i + l.length ≤ j → store_list fds i l j = fds j := by
  induction l with
  | nil => intro fds i j _; rfl
  | cons v l ih =>
    intro fds i j hj
    simp only [List.length_cons] at hj
    have hne : j ≠ i := by omega
    simp [store_list, ih (store fds i v) (i + 1) j (by omega), store, hne]

/-- Storing a list puts its `k`-th value at index `i + k`. -/
theorem store_list_at (l : List Int) :
    ∀ (fds : Nat → Int) (i k : Nat), k < l.length →
      l[k]? = some (store_list fds i l (i + k)) := by
  induction l with
  | nil => intro fds i k hk; simp at hk
  | cons v l ih =>
    intro fds i k hk
    cases k with
    | zero =>
      simp [store_list, store_list_below l (store fds i v) (i + 1) i (by omega), store]
    | succ k =>
      simp only [List.length_cons] at hk
      have := ih (store fds i v) (i + 1) k (by omega)
      simp only [store_list, List.getElem?_cons_succ, this]
      congr 2
      omega

/-- The requests of a concatenated trace. -/
theorem requests_append (a b : List Event) : requests (a ++ b) = requests a ++ requests b := by
  induction a with
  | nil => rfl
  | cons e a ih => cases e <;> simp [requests, ih]

/-- A trace without `getaddrinfo` events holds no request. -/
theorem requests_eq_nil (tr : List Event) (h : ∀ e ∈ tr, ∀ q, e ≠ Event.getaddrinfo q) :
    requests tr = [] := by
  induction tr with
  | nil => rfl
  | cons e tr ih =>
    have ht := ih (fun e he => h e (List.mem_cons_of_mem _ he))
    cases e <;> simp [requests, ht]
    exact h _ (List.mem_cons_self _ _) _ rfl

/-- The body of the loop makes no resolution request and never prints the
unsupported-endpoint message. -/
theorem try_candidate_events (c : Candidate) :
    ∀ e ∈ (try_candidate c).2,
      (∀ q, e ≠ Event.getaddrinfo q) ∧
      (∀ s, e ≠ Event.stderr (Msg.unsupported_endpoint s)) := by
  simp only [try_candidate, HAVE_FCNTL_H, eq_self_iff_true, if_true, fail_path]
  split_ifs <;> simp

/-- With every failure leaving a non-zero `errno`, `err` is non-zero after the
loop exactly when it was before or an attempted candidate failed. -/
theorem inet_loop_err (cands : List Candidate)
    (herr : ∀ c ∈ cands, c.out.ok = false → c.out.errno ≠ 0) :
    ∀ (n : Nat) (fds : Nat → Int) (count : Nat) (err : Int),
      ((inet_loop cands (n : Int) fds count err).err ≠ 0 ↔
        (err ≠ 0 ∨ ∃ c ∈ attempted cands n, c.out.ok = false)) := by
  induction cands with
  | nil =>
    intro n fds count err
    simp [inet_loop, attempted]
  | cons c it ih =>
    intro n fds count err
    have ih2 := ih (fun d hd => herr d (List.mem_cons_of_mem _ hd))
    cases n with
    | zero =>
      have : ((0 : Nat) : Int) = 0 := rfl
      rw [this, inet_loop_zero]
      simp [attempted]
    | succ n =>
      have hm : ((n + 1 : Nat) : Int) ≠ 0 := by omega
      have hm1 : ((n + 1 : Nat) : Int) - 1 = (n : Int) := by omega
      by_cases hok : c.out.ok = true
      · rw [inet_loop_cons_ok c it _ fds count err hm hok, hm1]
        simp only [attempted, hok, if_true]
        rw [ih2 n]
        simp [hok]
      · have hok2 : c.out.ok = false := by simpa using hok
        rw [inet_loop_cons_fail c it _ fds count err hm hok2]
        simp only [attempted, hok2]
        rw [ih2 (n + 1)]
        have he := herr c (List.mem_cons_self _ _) hok2
        constructor
        · intro _
          exact Or.inr ⟨c, List.mem_cons_self _ _, hok2⟩
        · intro _
          exact Or.inl he

/-- Every event of the loop comes from the body run for some candidate. -/
theorem inet_loop_events (cands : List Candidate) :
    ∀ (m : Int) (fds : Nat → Int) (count : Nat) (err : Int),
      ∀ e ∈ (inet_loop cands m fds count err).trace, ∃ c ∈ cands, e ∈ (try_candidate c).2 := by
  induction cands with
  | nil =>
    intro m fds count err e he
    simp [inet_loop] at he
  | cons c it ih =>
    intro m fds count err e he
    by_cases hm : m = 0
    · subst hm
      rw [inet_loop_zero] at he
      simp at he
    · by_cases hok : c.out.ok = true
      · rw [inet_loop_cons_ok c it m fds count err hm hok] at he
        rcases List.mem_append.mp he with h | h
        · exact ⟨c, List.mem_cons_self _ _, h⟩
        · obtain ⟨d, hd, hde⟩ := ih _ _ _ _ e h
          exact ⟨d, List.mem_cons_of_mem _ hd, hde⟩
      · have hok2 : c.out.ok = false := by simpa using hok
        rw [inet_loop_cons_fail c it m fds count err hm hok2] at he
        rcases List.mem_append.mp he with h | h
        · exact ⟨c, List.mem_cons_self _ _, h⟩
        · obtain ⟨d, hd, hde⟩ := ih _ _ _ _ e h
          exact ⟨d, List.mem_cons_of_mem _ hd, hde⟩

/-- The loop makes no resolution request. -/
theorem requests_inet_loop (cands : List Candidate) (m : Int) (fds : Nat → Int) (count : Nat)
    (err : Int) : requests (inet_loop cands m fds count err).trace = [] := by
  apply requests_eq_nil
  intro e he q
  obtain ⟨c, _, hc⟩ := inet_loop_events cands m fds count err e he
  exact (try_candidate_events c e hc).1 q

/-- A host-spec that does not parse, or whose service is empty, is refused
with one message, before any call. -/
theorem create_inet_sockets_refused (w : World) (a : CString) (fam : Family) (m : Int)
    (fds : Nat → Int)
    (h : (∃ msg, parse_addr a = Parsed.error msg) ∨ ∃ node, parse_addr a = Parsed.ok node []) :
    ∃ msg, create_inet_sockets w a fam m fds = ⟨-1, fds, [Event.stderr msg]⟩ := by
  rcases h with ⟨msg, h⟩ | ⟨node, h⟩
  · exact ⟨msg, by simp [create_inet_sockets, h]⟩
  · exact ⟨Msg.expected_port, by simp [create_inet_sockets, h]⟩

/-- A host-spec that parses with a non-empty service leads to one
`getaddrinfo` call; its failure ends the call, its success starts the loop. -/
theorem create_inet_sockets_parsed (w : World) (a : CString) (fam : Family) (m : Int)
    (fds : Nat → Int) (node : Option CString) (service : CString)
    (hp : parse_addr a = Parsed.ok node service) (hs : service ≠ []) :
    create_inet_sockets w a fam m fds =
      if (w.getaddrinfo (getaddrinfo_args node service fam)).1 ≠ 0 then
        ⟨-1, fds, [Event.getaddrinfo (getaddrinfo_args node service fam),
          Event.stderr (Msg.gai_strerror (w.getaddrinfo (getaddrinfo_args node service fam)).1)]⟩
      else if (inet_loop (w.getaddrinfo (getaddrinfo_args node service fam)).2 m fds 0
            (w.getaddrinfo (getaddrinfo_args node service fam)).1).count = 0 ∧
          (inet_loop (w.getaddrinfo (getaddrinfo_args node service fam)).2 m fds 0
            (w.getaddrinfo (getaddrinfo_args node service fam)).1).err ≠ 0 then
        ⟨-1,
          (inet_loop (w.getaddrinfo (getaddrinfo_args node service fam)).2 m fds 0
            (w.getaddrinfo (getaddrinfo_args node service fam)).1).fds,
          Event.getaddrinfo (getaddrinfo_args node service fam) ::
            ((inet_loop (w.getaddrinfo (getaddrinfo_args node service fam)).2 m fds 0
              (w.getaddrinfo (getaddrinfo_args node service fam)).1).trace ++
              [Event.freeaddrinfo])⟩
      else
        ⟨((inet_loop (w.getaddrinfo (getaddrinfo_args node service fam)).2 m fds 0
            (w.getaddrinfo (getaddrinfo_args node service fam)).1).count : Int),
          (inet_loop (w.getaddrinfo (getaddrinfo_args node service fam)).2 m fds 0
            (w.getaddrinfo (getaddrinfo_args node service fam)).1).fds,
          Event.getaddrinfo (getaddrinfo_args node service fam) ::
            ((inet_loop (w.getaddrinfo (getaddrinfo_args node service fam)).2 m fds 0
              (w.getaddrinfo (getaddrinfo_args node service fam)).1).trace ++
              [Event.freeaddrinfo])⟩ := by
  simp only [create_inet_sockets, hp, if_neg hs]

/-- The one request made for a host-spec that parses with a non-empty service. -/
theorem create_inet_sockets_requests (w : World) (a : CString) (fam : Family) (m : Int)
    (fds : Nat → Int) (node : Option CString) (service : CString)
    (hp : parse_addr a = Parsed.ok node service) (hs : service ≠ []) :
    requests (create_inet_sockets w a fam m fds).trace = [getaddrinfo_args node service fam] := by
  rw [create_inet_sockets_parsed w a fam m fds node service hp hs]
  split_ifs <;> simp [requests, requests_append, requests_inet_loop]

/-- The parser either fails or yields a node and a service. -/
theorem parse_addr_cases (a : CString) :
    (∃ msg, parse_addr a = Parsed.error msg) ∨ ∃ node service, parse_addr a = Parsed.ok node service := by
  cases h : parse_addr a with
  | error m => exact Or.inl ⟨m, rfl⟩
  | ok n s => exact Or.inr ⟨n, s, rfl⟩

/-- No candidate succeeds exactly when the list of succeeding descriptors is empty. -/
theorem succeeding_eq_nil (cands : List Candidate) :
    succeeding cands = [] ↔ ∀ c ∈ cands, c.out.ok = false := by
  simp [succeeding, List.filter_eq_nil_iff]

/-- When no candidate succeeds, all of them are attempted. -/
theorem attempted_all (cands : List Candidate) (n : Nat) (hn : 1 ≤ n)
    (h : succeeding cands = []) : attempted cands n = cands := by
  obtain ⟨rest, h1, h2⟩ := attempted_initial cands n hn
  by_cases hr : rest = []
  · rw [hr, List.append_nil] at h1
    exact h1.symm
  · have := (h2 hr).1
    rw [succeeding_attempted, h] at this
    simp at this
    omega

/-- The loop entered as `create_inet_sockets` enters it, with room for `n >= 1`
sockets. -/
theorem inet_loop_result (cands : List Candidate) (n : Nat) (fds : Nat → Int) (hn : 1 ≤ n)
    (herr : ∀ c ∈ cands, c.out.ok = false → c.out.errno ≠ 0) :
    (inet_loop cands (n : Int) fds 0 0).count = min n (succeeding cands).length ∧
    (inet_loop cands (n : Int) fds 0 0).fds = store_list fds 0 ((succeeding cands).take n) ∧
    (inet_loop cands (n : Int) fds 0 0).trace = attempts_trace (attempted cands n) ∧
    (((inet_loop cands (n : Int) fds 0 0).count = 0 ∧
        (inet_loop cands (n : Int) fds 0 0).err ≠ 0) ↔
      ((∀ c ∈ cands, c.out.ok = false) ∧ ∃ c ∈ cands, c.out.ok = false)) := by
  obtain ⟨h1, h2, h3⟩ := inet_loop_spec cands n fds 0 0
  have h4 := inet_loop_err cands herr n fds 0 0
  rw [succeeding_attempted] at h2 h3
  have hc : (inet_loop cands (n : Int) fds 0 0).count = min n (succeeding cands).length := by
    rw [h2, List.length_take]; omega
  refine ⟨hc, h3, h1, ?_⟩
  rw [hc, h4, ← succeeding_eq_nil]
  constructor
  · rintro ⟨hz, he⟩
    have hnil : succeeding cands = [] := by
      apply List.eq_nil_of_length_eq_zero
      omega
    refine ⟨hnil, ?_⟩
    rcases he with he | he
    · exact absurd rfl he
    · rwa [attempted_all cands n hn hnil] at he
  · rintro ⟨hnil, he⟩
    refine ⟨by simp [hnil], Or.inr ?_⟩
    rwa [attempted_all cands n hn hnil]

/-- The body of the loop calls `socket` exactly once. -/
theorem socket_calls_try_candidate (c : Candidate) : socket_calls (try_candidate c).2 = 1 := by
  simp only [try_candidate, HAVE_FCNTL_H, eq_self_iff_true, if_true, fail_path, socket_calls]
  split_ifs <;> simp [List.filter, Event.isSocket]

/-- The attempts for a list of candidates call `socket` once per candidate. -/
theorem socket_calls_attempts_trace (att : List Candidate) :
    socket_calls (attempts_trace att) = att.length := by
  induction att with
  | nil => simp [attempts_trace, socket_calls]
  | cons c cs ih =>
    have h1 := socket_calls_try_candidate c
    simp only [socket_calls, attempts_trace, List.map_cons, List.flatten_cons,
      List.filter_append, List.length_append, List.length_cons] at h1 ih ⊢
    omega

/-- The whole trace of a successful resolution calls `socket` once per
attempted candidate. -/
theorem socket_calls_resolved (q : Request) (att : List Candidate) :
    socket_calls (Event.getaddrinfo q :: (attempts_trace att ++ [Event.freeaddrinfo])) =
      att.length := by
  have h := socket_calls_attempts_trace att
  simp only [socket_calls] at h ⊢
  simp [List.filter_cons, List.filter_append, Event.isSocket, h]

/-- When the attempted candidates hold `n` successes, the last of them is a success. -/
theorem attempted_last (cands : List Candidate) :
    ∀ n : Nat, 1 ≤ n → (succeeding (attempted cands n)).length = n →
      ∃ pre c, attempted cands n = pre ++ [c] ∧ c.out.ok = true := by
  induction cands with
  | nil =>
    intro n hn h
    simp [attempted, succeeding] at h
    omega
  | cons c cs ih =>
    intro n hn h
    obtain ⟨k, rfl⟩ : ∃ k, n = k + 1 := ⟨n - 1, by omega⟩
    by_cases hok : c.out.ok = true
    · simp only [attempted, hok, if_true] at h ⊢
      by_cases hk : k = 0
      · subst hk
        exact ⟨[], c, by simp [attempted_zero], hok⟩
      · have h2 : (succeeding (attempted cs k)).length = k := by
          simp only [succeeding, List.filter_cons, hok, if_true, List.map_cons,
            List.length_cons] at h ⊢
          omega
        obtain ⟨pre, d, hp, hd⟩ := ih k (by omega) h2
        exact ⟨c :: pre, d, by rw [hp]; rfl, hd⟩
    · have hok2 : c.out.ok = false := by simpa using hok
      simp only [attempted, hok2] at h ⊢
      have h2 : (succeeding (attempted cs (k + 1))).length = k + 1 := by
        simpa [succeeding, hok2] using h
      obtain ⟨pre, d, hp, hd⟩ := ih (k + 1) (by omega) h2
      exact ⟨c :: pre, d, by simp [hp], hd⟩

/-- An initial part of the candidates that already holds `n` successes covers
everything that is attempted. -/
theorem attempted_length_le (cands : List Candidate) :
    ∀ (n : Nat) (pre post : List Candidate), cands = pre ++ post →
      1 ≤ n → n ≤ (succeeding pre).length → (attempted cands n).length ≤ pre.length := by
  induction cands with
  | nil =>
    intro n pre post _ _ _
    simp [attempted]
  | cons c cs ih =>
    intro n pre post h hn hs
    obtain ⟨k, rfl⟩ : ∃ k, n = k + 1 := ⟨n - 1, by omega⟩
    cases pre with
    | nil =>
      simp [succeeding] at hs
    | cons d pre2 =>
      simp only [List.cons_append, List.cons.injEq] at h
      obtain ⟨hd, hcs⟩ := h
      subst hd
      by_cases hok : c.out.ok = true
      · simp only [attempted, hok, if_true, List.length_cons]
        have hs2 : k ≤ (succeeding pre2).length := by
          simp only [succeeding, List.filter_cons, hok, if_true, List.map_cons,
            List.length_cons] at hs ⊢
          omega
        by_cases hk : k = 0
        · subst hk
          simp [attempted_zero]
        · have := ih k pre2 post hcs (by omega) hs2
          omega
      · have hok2 : c.out.ok = false := by simpa using hok
        simp only [attempted, hok2, Bool.false_eq_true, if_false, List.length_cons]
        have hs2 : k + 1 ≤ (succeeding pre2).length := by
          simpa [succeeding, hok2] using hs
        have := ih (k + 1) pre2 post hcs (by omega) hs2
        omega

/-- C1: for `max_fds >= 1`, when the request `q` that `create_inet_sockets`
makes resolves successfully to the candidates `cands`, and every candidate
that fails leaves a non-zero `errno`: the call returns -1 if and only if no
candidate succeeds and at least one fails; otherwise it returns
`min(max_fds, number of succeeding candidates)`; the result never exceeds
`max_fds`; `fds[0..ret)` holds the descriptors of the first succeeding
candidates in resolution order and the rest of the array is untouched.  The
calls made are exactly `getaddrinfo`, the attempts for an initial part `att` of
the candidates, and `freeaddrinfo`, with one `socket` call per member of `att`.
No candidate after the `max_fds`-th success is attempted: `att` holds at most
`max_fds` successes, when it holds `max_fds` of them its last member is a
success, and any initial part of the candidates that already holds `max_fds`
successes covers all of `att`.  The loop stops for no other reason: when a
candidate is left unattempted, `att` holds `max_fds` successes. -/
theorem create_inet_sockets_success_count (w : World) (a : CString) (fam : Family)
    (max_fds : Int) (fds : Nat → Int) (q : Request) (cands : List Candidate)
    (hm : 1 ≤ max_fds)
    (hq : requests (create_inet_sockets w a fam max_fds fds).trace = [q])
    (hres : w.getaddrinfo q = (0, cands))
    (herr : ∀ c ∈ cands, c.out.ok = false → c.out.errno ≠ 0) :
    ((create_inet_sockets w a fam max_fds fds).ret = -1 ↔
      ((∀ c ∈ cands, c.out.ok = false) ∧ ∃ c ∈ cands, c.out.ok = false)) ∧
    ((create_inet_sockets w a fam max_fds fds).ret ≠ -1 →
      (create_inet_sockets w a fam max_fds fds).ret =
        min max_fds ((succeeding cands).length : Int)) ∧
    (create_inet_sockets w a fam max_fds fds).ret ≤ max_fds ∧
    (∀ k : Nat, (k : Int) < (create_inet_sockets w a fam max_fds fds).ret →
      (succeeding cands)[k]? = some ((create_inet_sockets w a fam max_fds fds).fds k)) ∧
    (∀ j : Nat, (create_inet_sockets w a fam max_fds fds).ret ≤ (j : Int) →
      (create_inet_sockets w a fam max_fds fds).fds j = fds j) ∧
    (∃ att rest, cands = att ++ rest ∧
      (create_inet_sockets w a fam max_fds fds).trace =
        Event.getaddrinfo q :: (attempts_trace att ++ [Event.freeaddrinfo]) ∧
      socket_calls (create_inet_sockets w a fam max_fds fds).trace = att.length ∧
      ((succeeding att).length : Int) ≤ max_fds ∧
      (((succeeding att).length : Int) = max_fds →
        ∃ pre c, att = pre ++ [c] ∧ c.out.ok = true) ∧
      (∀ pre post, cands = pre ++ post → max_fds ≤ ((succeeding pre).length : Int) →
        att.length ≤ pre.length) ∧
      (rest ≠ [] → ((succeeding att).length : Int) = max_fds ∧
        ∃ pre c, att = pre ++ [c] ∧ c.out.ok = true)) := by
  obtain ⟨n, rfl⟩ : ∃ n : Nat, max_fds = (n : Int) := ⟨max_fds.toNat, by omega⟩
  have hn : 1 ≤ n := by omega
  rcases parse_addr_cases a with ⟨msg, hp⟩ | ⟨node, service, hp⟩
  · obtain ⟨m2, h2⟩ := create_inet_sockets_refused w a fam n fds (Or.inl ⟨msg, hp⟩)
    rw [h2] at hq
    simp [requests] at hq
  · by_cases hs : service = []
    · subst hs
      obtain ⟨m2, h2⟩ := create_inet_sockets_refused w a fam n fds (Or.inr ⟨node, hp⟩)
      rw [h2] at hq
      simp [requests] at hq
    · have hreq := create_inet_sockets_requests w a fam n fds node service hp hs
      rw [hq] at hreq
      have hqe : getaddrinfo_args node service fam = q := by simpa using hreq.symm
      rw [create_inet_sockets_parsed w a fam n fds node service hp hs, hqe, hres]
      simp only [ne_eq, not_true_eq_false, if_false]
      obtain ⟨hc, hf, ht, hiff⟩ := inet_loop_result cands n fds hn herr
      obtain ⟨rest, ha1, ha2⟩ := attempted_initial cands n hn
      have hle : (succeeding (attempted cands n)).length ≤ n := by
        rw [succeeding_attempted, List.length_take]
        omega
      have h6 : ∃ att rest, cands = att ++ rest ∧
          Event.getaddrinfo q ::
              ((inet_loop cands (n : Int) fds 0 0).trace ++ [Event.freeaddrinfo]) =
            Event.getaddrinfo q :: (attempts_trace att ++ [Event.freeaddrinfo]) ∧
          socket_calls (Event.getaddrinfo q ::
              ((inet_loop cands (n : Int) fds 0 0).trace ++ [Event.freeaddrinfo])) =
            att.length ∧
          ((succeeding att).length : Int) ≤ (n : Int) ∧
          (((succeeding att).length : Int) = (n : Int) →
            ∃ pre c, att = pre ++ [c] ∧ c.out.ok = true) ∧
          (∀ pre post, cands = pre ++ post → (n : Int) ≤ ((succeeding pre).length : Int) →
            att.length ≤ pre.length) ∧
          (rest ≠ [] → ((succeeding att).length : Int) = (n : Int) ∧
            ∃ pre c, att = pre ++ [c] ∧ c.out.ok = true) := by
        refine ⟨attempted cands n, rest, ha1, by rw [ht], ?_, ?_, ?_, ?_, ?_⟩
        · rw [ht]
          exact socket_calls_resolved q _
        · omega
        · intro he
          exact attempted_last cands n hn (by omega)
        · intro pre post hpp hs
          exact attempted_length_le cands n pre post hpp hn (by omega)
        · intro hr
          obtain ⟨b1, b2⟩ := ha2 hr
          exact ⟨by rw [b1], b2⟩
      by_cases hfail : (inet_loop cands (n : Int) fds 0 0).count = 0 ∧
          (inet_loop cands (n : Int) fds 0 0).err ≠ 0
      · simp only [if_pos hfail]
        have hnil : succeeding cands = [] := (succeeding_eq_nil cands).mpr (hiff.mp hfail).1
        refine ⟨?_, ?_, ?_, ?_, ?_, ?_⟩
        · simp only [true_iff]
          exact hiff.mp hfail
        · intro hne
          exact absurd trivial hne
        · omega
        · intro k hk
          omega
        · intro j _
          rw [hf, hnil]
          simp [store_list]
        · exact h6
      · simp only [if_neg hfail]
        refine ⟨?_, ?_, ?_, ?_, ?_, ?_⟩
        · constructor
          · intro h
            omega
          · intro h
            exact absurd (hiff.mpr h) hfail
        · intro _
          rw [hc]
          omega
        · rw [hc]
          omega
        · intro k hk
          rw [hc] at hk
          rw [hf]
          have hk2 : k < ((succeeding cands).take n).length := by
            rw [List.length_take]; omega
          have := store_list_at ((succeeding cands).take n) fds 0 k hk2
          rw [Nat.zero_add] at this
          rw [← this, List.getElem?_take]
          have : k < n := by omega
          simp [this]
        · intro j hj
          rw [hc] at hj
          rw [hf]
          apply store_list_above
          rw [List.length_take]
          omega
        · exact h6

/-- A trace whose last event is `close(fd)` and that holds no other `close`
closes `fd` exactly once and nothing else. -/
theorem closes_of_last (tr : List Event) (fd : Int)
    (h1 : tr.getLast? = some (Event.close fd)) (h2 : ∀ x, Event.close x ∉ tr.dropLast) :
    closes fd tr = 1 ∧ ∀ x, x ≠ fd → Event.close x ∉ tr := by
  have h3 : tr.dropLast ++ [Event.close fd] = tr := List.dropLast_append_getLast? _ h1
  refine ⟨?_, ?_⟩
  · rw [closes, ← h3, List.count_append, List.count_eq_zero_of_not_mem (h2 fd)]
    simp
  · intro x hx hmem
    rw [← h3] at hmem
    rcases List.mem_append.mp hmem with h | h
    · exact h2 x h
    · simp at h
      exact hx h

/-- C10: the candidate loop entered with `max_fds >= 1` runs the body for an
initial part `att` of the candidates and for nothing else, and the sockets it
obtains (identified by the candidate they were obtained for, since the system
may hand out the number of a closed descriptor again) fall into two classes.
Those of candidates for which all six calls succeed are stored in `fds`, in
order, the rest of the array being untouched; for them `SO_REUSEPORT` was set,
the socket bound, made listening and non-blocking, and `close` is not called.
Those of candidates for which a later call fails are not stored and are closed
exactly once, as the last call for that candidate, and nothing else is closed.
For a candidate whose `socket` call failed, `close` is not called at all. -/
theorem inet_loop_descriptor_partition (cands : List Candidate) (max_fds : Int) (fds : Nat → Int) (err : Int)
    (hm : 1 ≤ max_fds) :
    ∃ att rest, cands = att ++ rest ∧
      (inet_loop cands max_fds fds 0 err).trace = attempts_trace att ∧
      (inet_loop cands max_fds fds 0 err).count = (succeeding att).length ∧
      (∀ k, k < (inet_loop cands max_fds fds 0 err).count →
        (succeeding att)[k]? = some ((inet_loop cands max_fds fds 0 err).fds k)) ∧
      (∀ j, (inet_loop cands max_fds fds 0 err).count ≤ j →
        (inet_loop cands max_fds fds 0 err).fds j = fds j) ∧
      ∀ c ∈ att,
        (c.out.ok = true →
          (0 ≤ c.out.socket_ret ∧ 0 ≤ c.out.setsockopt_ret ∧ 0 ≤ c.out.bind_ret ∧
            0 ≤ c.out.listen_ret ∧ 0 ≤ c.out.getfl_ret ∧ 0 ≤ c.out.setfl_ret) ∧
          (try_candidate c).2 =
            [Event.socket c.ai_family c.ai_socktype c.ai_protocol,
             Event.setsockopt_reuseport c.out.socket_ret,
             Event.bind c.out.socket_ret c.ai_addr,
             Event.listen c.out.socket_ret POSTSRSD_SOCKET_LISTEN_QUEUE,
             Event.fcntl_getfl c.out.socket_ret,
             Event.fcntl_setfl_nonblock c.out.socket_ret c.out.getfl_ret] ∧
          ∀ x, Event.close x ∉ (try_candidate c).2) ∧
        (c.out.ok = false → 0 ≤ c.out.socket_ret →
          closes c.out.socket_ret (try_candidate c).2 = 1 ∧
          (try_candidate c).2.getLast? = some (Event.close c.out.socket_ret) ∧
          ∀ x, x ≠ c.out.socket_ret → Event.close x ∉ (try_candidate c).2) ∧
        (c.out.socket_ret < 0 →
          c.out.ok = false ∧
          (try_candidate c).2 =
            [Event.socket c.ai_family c.ai_socktype c.ai_protocol,
             Event.stderr (Msg.strerror c.out.errno)] ∧
          ∀ x, Event.close x ∉ (try_candidate c).2) := by
  obtain ⟨n, rfl⟩ : ∃ n : Nat, max_fds = (n : Int) := ⟨max_fds.toNat, by omega⟩
  have hn : 1 ≤ n := by omega
  obtain ⟨h1, h2, h3⟩ := inet_loop_spec cands n fds 0 err
  obtain ⟨rest, ha1, _⟩ := attempted_initial cands n hn
  rw [Nat.zero_add] at h2
  refine ⟨attempted cands n, rest, ha1, h1, h2, ?_, ?_, ?_⟩
  · intro k hk
    rw [h2] at hk
    have := store_list_at (succeeding (attempted cands n)) fds 0 k hk
    rw [Nat.zero_add] at this
    rw [h3, this]
  · intro j hj
    rw [h2] at hj
    rw [h3]
    exact store_list_above _ fds 0 j (by omega)
  · intro c _
    refine ⟨?_, ?_, ?_⟩
    · intro hok
      have ht := try_candidate_ok c hok
      refine ⟨?_, ht, ?_⟩
      · simp only [Outcome.ok, Bool.and_eq_true, decide_eq_true_eq] at hok
        omega
      · intro x
        rw [ht]
        simp
    · intro hok h0
      obtain ⟨l1, l2⟩ := (try_candidate_fail c hok).2 h0
      obtain ⟨c1, c2⟩ := closes_of_last _ _ l1 l2
      exact ⟨c1, l1, c2⟩
    · intro hneg
      have hok : c.out.ok = false := by
        simp only [Outcome.ok, Bool.and_eq_false_iff, decide_eq_false_iff_not]
        left; left; left; left; left
        omega
      have ht := (try_candidate_fail c hok).1 hneg
      refine ⟨hok, ht, ?_⟩
      intro x
      rw [ht]
      simp

/-- With `max_fds >= 1`, a spec `inet:a` is handed to `create_inet_sockets`
with `AF_UNSPEC` (lines 226-249). -/
theorem endpoint_create_inet (w : World) (a : CString) (m : Int) (fds : Nat → Int)
    (h : 1 ≤ m) :
    endpoint_create w ("inet:".toList ++ a) m fds =
      if (create_inet_sockets w a Family.AF_UNSPEC m fds).ret < 0 then
        ⟨(create_inet_sockets w a Family.AF_UNSPEC m fds).ret,
         (create_inet_sockets w a Family.AF_UNSPEC m fds).fds,
         (create_inet_sockets w a Family.AF_UNSPEC m fds).trace ++
          [Event.stderr (Msg.failed_endpoint ("inet:".toList ++ a))]⟩
      else create_inet_sockets w a Family.AF_UNSPEC m fds := by
  have h1 : ¬ m < 1 := by omega
  simp [endpoint_create, HAVE_UNIX_SOCKETS, HAVE_INET_SOCKETS, h1, strncmp_eq, lit_unix, lit_local, lit_inet]

/-- With `max_fds >= 1`, a spec `inet4:a` is handed to `create_inet_sockets`
with `AF_INET` (lines 230-249). -/
theorem endpoint_create_inet4 (w : World) (a : CString) (m : Int) (fds : Nat → Int)
    (h : 1 ≤ m) :
    endpoint_create w ("inet4:".toList ++ a) m fds =
      if (create_inet_sockets w a Family.AF_INET m fds).ret < 0 then
        ⟨(create_inet_sockets w a Family.AF_INET m fds).ret,
         (create_inet_sockets w a Family.AF_INET m fds).fds,
         (create_inet_sockets w a Family.AF_INET m fds).trace ++
          [Event.stderr (Msg.failed_endpoint ("inet4:".toList ++ a))]⟩
      else create_inet_sockets w a Family.AF_INET m fds := by
  have h1 : ¬ m < 1 := by omega
  simp [endpoint_create, HAVE_UNIX_SOCKETS, HAVE_INET_SOCKETS, h1, strncmp_eq, lit_unix, lit_local, lit_inet, lit_inet4]

/-- With `max_fds >= 1`, a spec `inet6:a` is handed to `create_inet_sockets`
with `AF_INET6` (lines 235-249). -/
theorem endpoint_create_inet6 (w : World) (a : CString) (m : Int) (fds : Nat → Int)
    (h : 1 ≤ m) :
    endpoint_create w ("inet6:".toList ++ a) m fds =
      if (create_inet_sockets w a Family.AF_INET6 m fds).ret < 0 then
        ⟨(create_inet_sockets w a Family.AF_INET6 m fds).ret,
         (create_inet_sockets w a Family.AF_INET6 m fds).fds,
         (create_inet_sockets w a Family.AF_INET6 m fds).trace ++
          [Event.stderr (Msg.failed_endpoint ("inet6:".toList ++ a))]⟩
      else create_inet_sockets w a Family.AF_INET6 m fds := by
  have h1 : ¬ m < 1 := by omega
  simp [endpoint_create, HAVE_UNIX_SOCKETS, HAVE_INET_SOCKETS, h1, strncmp_eq, lit_unix, lit_local, lit_inet, lit_inet4, lit_inet6]

/-- The host-specs without a port: the empty text, `host:`, `[host]:` and
`[host]` all fail to parse or parse with an empty service. -/
theorem port_missing_refused (a : CString)
    (h : a = [] ∨ (∃ H, ':' ∉ H ∧ a = H ++ [':']) ∨
      (∃ H, ']' ∉ H ∧ a = '[' :: (H ++ [']', ':'])) ∨
      (∃ H, ']' ∉ H ∧ a = '[' :: (H ++ [']']))) :
    (∃ msg, parse_addr a = Parsed.error msg) ∨ ∃ node, parse_addr a = Parsed.ok node [] := by
  rcases h with h | ⟨H, hH, h⟩ | ⟨H, hH, h⟩ | ⟨H, hH, h⟩
  · subst h
    exact Or.inr ⟨none, by decide⟩
  · subst h
    by_cases hb : H.head? = some '['
    · obtain ⟨rest, rfl⟩ : ∃ rest, H = '[' :: rest := by
        cases H with
        | nil => simp at hb
        | cons x xs =>
          simp at hb
          exact ⟨xs, by rw [hb]⟩
      have hrest : ':' ∉ rest := fun e => hH (List.mem_cons_of_mem _ e)
      by_cases hc : ']' ∈ rest
      · obtain ⟨u, v, huv, hu⟩ := List.eq_append_cons_of_mem hc
        subst huv
        have hv : ':' ∉ v := fun e => hrest (by simp [e])
        have e1 : '[' :: (u ++ ']' :: v) ++ [':'] = '[' :: (u ++ ']' :: (v ++ [':'])) := by simp
        rw [e1, parse_addr_bracket u (v ++ [':']) hu]
        cases v with
        | nil => exact Or.inr ⟨some u, by simp⟩
        | cons x v2 =>
          have hx : x ≠ ':' := fun e => hv (by simp [e])
          exact Or.inl ⟨Msg.expected_colon, by simp [hx]⟩
      · have hc2 : ']' ∉ rest ++ [':'] := by
          simp only [List.mem_append, List.mem_singleton, not_or]
          exact ⟨hc, by decide⟩
        exact Or.inl ⟨Msg.expected_bracket, by
          rw [List.cons_append]; exact parse_addr_unclosed _ hc2⟩
    · exact Or.inr ⟨some H, parse_addr_plain H [] hH hb⟩
  · subst h
    exact Or.inr ⟨some H, by rw [parse_addr_bracket H [':'] hH]; simp⟩
  · subst h
    exact Or.inl ⟨Msg.expected_colon, by rw [parse_addr_bracket H [] hH]; simp⟩

/-- C6: with `max_fds >= 1`, for a host-spec without a port, that is the empty
text, `H:` with `H` free of colons, `[H]:` or `[H]` with `H` free of closing
brackets, and for each of the prefixes `inet:`, `inet4:`, `inet6:`,
`endpoint_create` returns -1, leaves `fds` unchanged and makes no call at all
(no resolution, no socket call): it only prints messages. -/
theorem endpoint_create_port_mandatory (w : World) (a : CString) (max_fds : Int) (fds : Nat → Int)
    (hm : 1 ≤ max_fds)
    (h : a = [] ∨ (∃ H, ':' ∉ H ∧ a = H ++ [':']) ∨
      (∃ H, ']' ∉ H ∧ a = '[' :: (H ++ [']', ':'])) ∨
      (∃ H, ']' ∉ H ∧ a = '[' :: (H ++ [']']))) :
    ((endpoint_create w ("inet:".toList ++ a) max_fds fds).ret = -1 ∧
      (endpoint_create w ("inet:".toList ++ a) max_fds fds).fds = fds ∧
      calls (endpoint_create w ("inet:".toList ++ a) max_fds fds).trace = []) ∧
    ((endpoint_create w ("inet4:".toList ++ a) max_fds fds).ret = -1 ∧
      (endpoint_create w ("inet4:".toList ++ a) max_fds fds).fds = fds ∧
      calls (endpoint_create w ("inet4:".toList ++ a) max_fds fds).trace = []) ∧
    ((endpoint_create w ("inet6:".toList ++ a) max_fds fds).ret = -1 ∧
      (endpoint_create w ("inet6:".toList ++ a) max_fds fds).fds = fds ∧
      calls (endpoint_create w ("inet6:".toList ++ a) max_fds fds).trace = []) := by
  have hp := port_missing_refused a h
  rw [endpoint_create_inet w a max_fds fds hm, endpoint_create_inet4 w a max_fds fds hm,
    endpoint_create_inet6 w a max_fds fds hm]
  refine ⟨?_, ?_, ?_⟩
  · obtain ⟨msg, hr⟩ := create_inet_sockets_refused w a Family.AF_UNSPEC max_fds fds hp
    rw [hr]
    simp [calls, Event.isCall]
  · obtain ⟨msg, hr⟩ := create_inet_sockets_refused w a Family.AF_INET max_fds fds hp
    rw [hr]
    simp [calls, Event.isCall]
  · obtain ⟨msg, hr⟩ := create_inet_sockets_refused w a Family.AF_INET6 max_fds fds hp
    rw [hr]
    simp [calls, Event.isCall]

/-- An instance at the spec `inet:mail:`. -/
theorem endpoint_create_port_mandatory_witness :
    ((1 : Int) ≤ 1 ∧ ':' ∉ "mail".toList) ∧
    (endpoint_create exWorld ("inet:".toList ++ ("mail".toList ++ [':'])) 1 exFds).ret = -1 ∧
    calls (endpoint_create exWorld ("inet:".toList ++ ("mail".toList ++ [':'])) 1 exFds).trace
      = [] :=
  ⟨⟨by decide, by decide⟩,
   (endpoint_create_port_mandatory exWorld _ 1 exFds (by decide) (Or.inr (Or.inl ⟨"mail".toList, by decide, rfl⟩))).1.1,
   (endpoint_create_port_mandatory exWorld _ 1 exFds (by decide) (Or.inr (Or.inl ⟨"mail".toList, by decide, rfl⟩))).1.2.2⟩

/-- Bracket form followed by a colon: node and service. -/
theorem parse_addr_bracket_colon (H P : CString) (h : ']' ∉ H) :
    parse_addr ('[' :: (H ++ ']' :: ':' :: P)) = Parsed.ok (some H) P := by
  rw [parse_addr_bracket H _ h]
  simp

/-- The characters of the literal `"*"`. -/
theorem lit_star : "*".toList = ['*'] := rfl

/-- The characters of the literal `"localhost"`. -/
theorem lit_localhost :
    "localhost".toList = ['l', 'o', 'c', 'a', 'l', 'h', 'o', 's', 't'] := rfl

/-- C7 (amended): for a bare port `P` (non-empty, no colon, not starting with
an opening bracket), `create_inet_sockets` makes one resolution request, with
no node and with the passive flag not set; it is the request made for
`localhost:P`, and it differs from the request made for `*:P`, which has the
passive flag set. -/
theorem bare_port_request (w : World) (P : CString) (fam : Family) (max_fds : Int) (fds : Nat → Int)
    (hP : P ≠ []) (hc : ':' ∉ P) (hb : P.head? ≠ some '[') :
    requests (create_inet_sockets w P fam max_fds fds).trace =
      [⟨none, P, fam, SockType.SOCK_STREAM, 0⟩] ∧
    requests (create_inet_sockets w ("localhost:".toList ++ P) fam max_fds fds).trace =
      requests (create_inet_sockets w P fam max_fds fds).trace ∧
    requests (create_inet_sockets w ("*:".toList ++ P) fam max_fds fds).trace =
      [⟨none, P, fam, SockType.SOCK_STREAM, AI_PASSIVE⟩] ∧
    requests (create_inet_sockets w ("*:".toList ++ P) fam max_fds fds).trace ≠
      requests (create_inet_sockets w P fam max_fds fds).trace := by
  have h1 := create_inet_sockets_requests w P fam max_fds fds none P
    (parse_addr_bare P hc hb) hP
  have h2 := create_inet_sockets_requests w ("localhost:".toList ++ P) fam max_fds fds
    (some "localhost".toList) P
    (parse_addr_plain "localhost".toList P (by decide) (by decide)) hP
  have h3 := create_inet_sockets_requests w ("*:".toList ++ P) fam max_fds fds
    (some "*".toList) P
    (parse_addr_plain "*".toList P (by decide) (by decide)) hP
  have a1 : getaddrinfo_args none P fam = ⟨none, P, fam, SockType.SOCK_STREAM, 0⟩ := by
    simp [getaddrinfo_args]
  have a2 : getaddrinfo_args (some "localhost".toList) P fam =
      ⟨none, P, fam, SockType.SOCK_STREAM, 0⟩ := by
    simp [getaddrinfo_args, lit_star, lit_localhost]
  have a3 : getaddrinfo_args (some "*".toList) P fam =
      ⟨none, P, fam, SockType.SOCK_STREAM, AI_PASSIVE⟩ := by
    simp [getaddrinfo_args, lit_star, lit_localhost]
  rw [h1, h2, h3, a1, a2, a3]
  refine ⟨rfl, rfl, rfl, ?_⟩
  simp [AI_PASSIVE]

/-- C7, as stated, fails: the request made for the bare port `8080` has the
passive flag clear, the one made for `*:8080` has it set. -/
theorem bare_port_not_passive :
    requests (create_inet_sockets exWorld "8080".toList Family.AF_UNSPEC 1 exFds).trace =
      [⟨none, "8080".toList, Family.AF_UNSPEC, SockType.SOCK_STREAM, 0⟩] ∧
    requests (create_inet_sockets exWorld "*:8080".toList Family.AF_UNSPEC 1 exFds).trace =
      [⟨none, "8080".toList, Family.AF_UNSPEC, SockType.SOCK_STREAM, AI_PASSIVE⟩] ∧
    requests (create_inet_sockets exWorld "8080".toList Family.AF_UNSPEC 1 exFds).trace ≠
      requests (create_inet_sockets exWorld "*:8080".toList Family.AF_UNSPEC 1 exFds).trace := by
  decide

/-- An instance at the port `8080`. -/
theorem bare_port_request_witness :
    ("8080".toList ≠ [] ∧ ':' ∉ "8080".toList ∧ "8080".toList.head? ≠ some '[') ∧
    requests (create_inet_sockets exWorld "8080".toList Family.AF_INET 1 exFds).trace =
      [⟨none, "8080".toList, Family.AF_INET, SockType.SOCK_STREAM, 0⟩] :=
  ⟨⟨by decide, by decide, by decide⟩,
   (bare_port_request exWorld "8080".toList Family.AF_INET 1 exFds (by decide) (by decide) (by decide)).1⟩

/-- C8: for every non-empty port `P`, `create_inet_sockets` resolves `*:P` and
`[*]:P` with no node and the passive flag set, `localhost:P` and
`[localhost]:P` with no node and no flag, and every host-spec whose parsed host
`H` is neither `*` nor `localhost` with `H` itself as node and no flag.  The
comparison is exact: `LOCALHOST` is passed on as a node. -/
theorem star_and_localhost_requests (w : World) (P : CString) (fam : Family) (max_fds : Int) (fds : Nat → Int)
    (hP : P ≠ []) :
    (requests (create_inet_sockets w ("*:".toList ++ P) fam max_fds fds).trace =
        [⟨none, P, fam, SockType.SOCK_STREAM, AI_PASSIVE⟩] ∧
      requests (create_inet_sockets w ("[*]:".toList ++ P) fam max_fds fds).trace =
        [⟨none, P, fam, SockType.SOCK_STREAM, AI_PASSIVE⟩]) ∧
    (requests (create_inet_sockets w ("localhost:".toList ++ P) fam max_fds fds).trace =
        [⟨none, P, fam, SockType.SOCK_STREAM, 0⟩] ∧
      requests (create_inet_sockets w ("[localhost]:".toList ++ P) fam max_fds fds).trace =
        [⟨none, P, fam, SockType.SOCK_STREAM, 0⟩]) ∧
    (∀ a H : CString, parse_addr a = Parsed.ok (some H) P →
      H ≠ "*".toList → H ≠ "localhost".toList →
      requests (create_inet_sockets w a fam max_fds fds).trace =
        [⟨some H, P, fam, SockType.SOCK_STREAM, 0⟩]) ∧
    requests (create_inet_sockets w ("LOCALHOST:".toList ++ P) fam max_fds fds).trace =
      [⟨some "LOCALHOST".toList, P, fam, SockType.SOCK_STREAM, 0⟩] := by
  have a2 : getaddrinfo_args (some "localhost".toList) P fam =
      ⟨none, P, fam, SockType.SOCK_STREAM, 0⟩ := by
    simp [getaddrinfo_args, lit_star, lit_localhost]
  have a3 : getaddrinfo_args (some "*".toList) P fam =
      ⟨none, P, fam, SockType.SOCK_STREAM, AI_PASSIVE⟩ := by
    simp [getaddrinfo_args, lit_star, lit_localhost]
  have a4 : ∀ H : CString, H ≠ "*".toList → H ≠ "localhost".toList →
      getaddrinfo_args (some H) P fam = ⟨some H, P, fam, SockType.SOCK_STREAM, 0⟩ := by
    intro H h1 h2
    rw [lit_star] at h1
    rw [lit_localhost] at h2
    simp [getaddrinfo_args, lit_star, lit_localhost, h1, h2]
  refine ⟨⟨?_, ?_⟩, ⟨?_, ?_⟩, ?_, ?_⟩
  · exact (create_inet_sockets_requests w _ fam max_fds fds (some "*".toList) P
      (parse_addr_plain "*".toList P (by decide) (by decide)) hP).trans (congrArg (fun q => [q]) a3)
  · exact (create_inet_sockets_requests w _ fam max_fds fds (some "*".toList) P
      (parse_addr_bracket_colon "*".toList P (by decide)) hP).trans (congrArg (fun q => [q]) a3)
  · exact (create_inet_sockets_requests w _ fam max_fds fds (some "localhost".toList) P
      (parse_addr_plain "localhost".toList P (by decide) (by decide)) hP).trans
        (congrArg (fun q => [q]) a2)
  · exact (create_inet_sockets_requests w _ fam max_fds fds (some "localhost".toList) P
      (parse_addr_bracket_colon "localhost".toList P (by decide)) hP).trans (congrArg (fun q => [q]) a2)
  · intro a H hp h1 h2
    rw [create_inet_sockets_requests w a fam max_fds fds (some H) P hp hP, a4 H h1 h2]
  · exact (create_inet_sockets_requests w _ fam max_fds fds (some "LOCALHOST".toList) P
      (parse_addr_plain "LOCALHOST".toList P (by decide) (by decide)) hP).trans
        (congrArg (fun q => [q]) (a4 "LOCALHOST".toList (by decide) (by decide)))

/-- An instance at the port `25`. -/
theorem star_and_localhost_requests_witness :
    "25".toList ≠ [] ∧
    requests (create_inet_sockets exWorld ("[*]:".toList ++ "25".toList) Family.AF_INET6 1
      exFds).trace = [⟨none, "25".toList, Family.AF_INET6, SockType.SOCK_STREAM, AI_PASSIVE⟩] :=
  ⟨by decide,
   (star_and_localhost_requests exWorld "25".toList Family.AF_INET6 1 exFds (by decide)).1.2⟩

/-- C3, at a path that does not fit `sun_path`: with 108 bytes of `sun_path`
(Linux), the lock free and every call succeeding, the spec `unix:` followed by
a path of 108 characters makes `endpoint_create` lock and unlink the full path,
bind the socket to its first 107 characters, which is another path, and
return 1: the descriptor in `fds[0]` is not bound to the path asked for. -/
theorem unix_long_path_bound_elsewhere :
    (endpoint_create exWorld ("unix:".toList ++ exLongPath) 1 exFds).ret = 1 ∧
    (endpoint_create exWorld ("unix:".toList ++ exLongPath) 1 exFds).fds 0 = 5 ∧
    Event.acquire_lock exLongPath ∈
      (endpoint_create exWorld ("unix:".toList ++ exLongPath) 1 exFds).trace ∧
    Event.unlink exLongPath ∈
      (endpoint_create exWorld ("unix:".toList ++ exLongPath) 1 exFds).trace ∧
    Event.bind_unix 5 exLongPath ∉
      (endpoint_create exWorld ("unix:".toList ++ exLongPath) 1 exFds).trace ∧
    Event.bind_unix 5 (exLongPath.take 107) ∈
      (endpoint_create exWorld ("unix:".toList ++ exLongPath) 1 exFds).trace ∧
    exLongPath.take 107 ≠ exLongPath := by
  decide

/-- An instance at `unix:/tmp/x`, once where every call succeeds and once where
the lock is held and bind fails. -/
theorem endpoint_create_unix_socket_result_witness :
    (((1 : Int) ≤ 1 ∧ "/tmp/x".toList.length < exWorld.sun_path_size) ∧
      ("/tmp/x".toList ≠ [] ∧ exWorld.unix_out.unix_ok = true) ∧
      (endpoint_create exWorld ("unix:".toList ++ "/tmp/x".toList) 1 exFds).ret = 1) ∧
    (((1 : Int) ≤ 1 ∧ "/tmp/x".toList.length < exWorldBusy.sun_path_size) ∧
      ¬ ("/tmp/x".toList ≠ [] ∧ exWorldBusy.unix_out.unix_ok = true) ∧
      (endpoint_create exWorldBusy ("unix:".toList ++ "/tmp/x".toList) 1 exFds).ret = -1) :=
  ⟨⟨⟨by decide, by decide⟩, ⟨by decide, by decide⟩,
    (endpoint_create_unix_socket_result exWorld "/tmp/x".toList 1 exFds (by decide)
      (by decide)).2.1.2 ⟨by decide, by decide⟩⟩,
   ⟨⟨by decide, by decide⟩, by decide,
    ((endpoint_create_unix_socket_result exWorldBusy "/tmp/x".toList 1 exFds
      (by decide) (by decide)).2.2.2.1 (by decide)).1⟩⟩

/-- An instance at `max_fds = 0` and at `max_fds = -3`. -/
theorem endpoint_create_max_fds_below_one_witness :
    ((0 : Int) < 1 ∧ (-3 : Int) < 1) ∧
    (endpoint_create exWorld "inet:*:25".toList 0 exFds).ret = 0 ∧
    (endpoint_create exWorld "bogus".toList (-3) exFds).trace = [] :=
  ⟨⟨by decide, by decide⟩,
   (endpoint_create_max_fds_below_one exWorld _ 0 exFds (by decide)).1,
   (endpoint_create_max_fds_below_one exWorld _ (-3) exFds (by decide)).2.2⟩

/-- An instance at `/tmp/x`, with the lock free and with the lock held. -/
theorem create_unix_socket_unlink_iff_lock_witness :
    "/tmp/x".toList ≠ [] ∧
    (Event.unlink "/tmp/x".toList ∈ (create_unix_socket exWorld "/tmp/x".toList).2 ↔
      0 < exWorld.acquire_lock "/tmp/x".toList) ∧
    (¬ 0 < exWorldBusy.acquire_lock "/tmp/x".toList ∧
      ∀ q, Event.unlink q ∉ (create_unix_socket exWorldBusy "/tmp/x".toList).2) :=
  ⟨by decide,
   (create_unix_socket_unlink_iff_lock exWorld "/tmp/x".toList (by decide)).1,
   by decide,
   (create_unix_socket_unlink_iff_lock exWorldBusy "/tmp/x".toList (by decide)).2.2
     (by decide)⟩

/-- An instance at `*:25` with room for two sockets, where the first candidate
succeeds and the second fails; and with room for one socket, where the second
candidate is not attempted (one `socket` call at most). -/
theorem create_inet_sockets_success_count_witness :
    (((1 : Int) ≤ 2 ∧ (1 : Int) ≤ 1) ∧
      requests (create_inet_sockets exWorld "*:25".toList Family.AF_UNSPEC 2 exFds).trace =
        [⟨none, "25".toList, Family.AF_UNSPEC, SockType.SOCK_STREAM, AI_PASSIVE⟩] ∧
      requests (create_inet_sockets exWorld "*:25".toList Family.AF_UNSPEC 1 exFds).trace =
        [⟨none, "25".toList, Family.AF_UNSPEC, SockType.SOCK_STREAM, AI_PASSIVE⟩] ∧
      exWorld.getaddrinfo
          ⟨none, "25".toList, Family.AF_UNSPEC, SockType.SOCK_STREAM, AI_PASSIVE⟩ =
        (0, exCands) ∧
      ∀ c ∈ exCands, c.out.ok = false → c.out.errno ≠ 0) ∧
    (create_inet_sockets exWorld "*:25".toList Family.AF_UNSPEC 2 exFds).ret =
      min 2 ((succeeding exCands).length : Int) ∧
    socket_calls (create_inet_sockets exWorld "*:25".toList Family.AF_UNSPEC 1 exFds).trace
      ≤ 1 :=
  ⟨⟨⟨by decide, by decide⟩, by decide, by decide, by decide, by decide⟩,
   (create_inet_sockets_success_count exWorld "*:25".toList Family.AF_UNSPEC 2 exFds
      ⟨none, "25".toList, Family.AF_UNSPEC, SockType.SOCK_STREAM, AI_PASSIVE⟩ exCands
      (by decide) (by decide) (by decide) (by decide)).2.1 (by decide),
   match (create_inet_sockets_success_count exWorld "*:25".toList Family.AF_UNSPEC 1 exFds
      ⟨none, "25".toList, Family.AF_UNSPEC, SockType.SOCK_STREAM, AI_PASSIVE⟩ exCands
      (by decide) (by decide) (by decide) (by decide)).2.2.2.2.2 with
   | ⟨_, _, _, _, h3, _, _, h6, _⟩ =>
     h3 ▸ h6 (exCands.take 1) (exCands.drop 1) (by decide) (by decide)⟩

/-- An instance at the example candidates with room for two sockets. -/
theorem inet_loop_descriptor_partition_witness :
    (1 : Int) ≤ 2 ∧
    ∃ att rest, exCands = att ++ rest ∧
      (inet_loop exCands 2 exFds 0 0).trace = attempts_trace att ∧
      (inet_loop exCands 2 exFds 0 0).count = (succeeding att).length :=
  ⟨by decide,
   match inet_loop_descriptor_partition exCands 2 exFds 0 (by decide) with
   | ⟨att, rest, h1, h2, h3, _⟩ => ⟨att, rest, h1, h2, h3⟩⟩

end PostSRSd
